import Mathlib

/-! PeerSwap swap service (`swap/service.go`): a shallow embedding

The swap coordination engine of `swap/service.go` is embedded as Lean
functions.  The service talks to collaborators through Go interfaces
(wallet, blockchain service, Lightning client, peer communicator, swap
store) and calls library functions (`liquid`, `go-elements`, `btcec`)
whose code is not part of `service.go`; they are gathered in the record
`World` and every definition is parametric in it.

* byte slices are `List Nat` (`nil` and the empty slice coincide, as they
  do under `bytes.Compare`);
* `uint64` values are `Nat`, with the wrap-around of Go's arithmetic made
  explicit (`u64add`, `u64sub`, `u64mul`);
* a Go call returning `(value, error)` is an `Except Err value`; a function
  of the service returns a `Res`, which adds the run-time panic of an
  out-of-range index;
* the mutable parts of the service (store contents, `txWatchList`) and the
  externally visible effects (a trace of `Event`s) are threaded explicitly
  through `St`.
-/

namespace PeerSwap

/-! ## Constants -/

def FIXED_FEE : Nat := 500

def LOCKTIME : Nat := 100

/-! ## Machine arithmetic -/

/-- Go `uint64` addition. -/
def u64add (a b : Nat) : Nat := (a + b) % 2 ^ 64

/-- Go `uint64` subtraction. -/
def u64sub (a b : Nat) : Nat := (a + 2 ^ 64 - b % 2 ^ 64) % 2 ^ 64

/-- Go `uint64` multiplication. -/
def u64mul (a b : Nat) : Nat := (a * b) % 2 ^ 64

/-! ## Errors and results -/

abbrev Bytes := List Nat

/-- Go `error` values met by the service. -/
inductive Err where
  /-- Go `errors.New(s)` inside `service.go`. -/
  | msg (s : String)
  /-- The store's error for an id that already exists. -/
  | Duplicate
  /-- The store's error for an id that is absent. -/
  | NotFound
  /-- Go `hex.InvalidByteError`. -/
  | hexInvalidByte
  /-- Go `hex.ErrLength`. -/
  | hexErrLength
  /-- An error reported by a collaborator or a library. -/
  | collab (s : String)
  deriving DecidableEq, Repr

/-- Outcome of a function of the service: a value, a returned `error`, or a
run-time panic (index out of range). -/
inductive Res (α : Type) where
  | ok (a : α)
  | err (e : Err)
  | panic (m : String)
  deriving DecidableEq, Repr

namespace Res

def bind {α β : Type} (r : Res α) (f : α → Res β) : Res β :=
  match r with
  | ok a => f a
  | err e => err e
  | panic m => panic m

/-- A Go call `v, err := f(..)` followed by `if err != nil { return err }`. -/
def ofExcept {α : Type} : Except Err α → Res α
  | .ok a => ok a
  | .error e => err e

end Res

instance : Monad Res where
  pure := Res.ok
  bind := Res.bind

deriving instance DecidableEq for Except

/-! ## `encoding/hex` -/

/-- Value of one hexadecimal digit (`reverseHexTable`), `none` for any other
character. -/
def fromHexChar (c : Char) : Option Nat :=
  let n := c.toNat
  if 48 ≤ n ∧ n ≤ 57 then some (n - 48)
  else if 97 ≤ n ∧ n ≤ 102 then some (n - 97 + 10)
  else if 65 ≤ n ∧ n ≤ 70 then some (n - 65 + 10)
  else none

/-- The loop of `hex.Decode`: pairs of digits are decoded left to right; an
invalid digit is reported before a bad length. -/
def hexDecodeChars : List Char → Except Err Bytes
  | [] => .ok []
  | [c] =>
    match fromHexChar c with
    | none => .error .hexInvalidByte
    | some _ => .error .hexErrLength
  | p :: q :: rest =>
    match fromHexChar p with
    | none => .error .hexInvalidByte
    | some a =>
      match fromHexChar q with
      | none => .error .hexInvalidByte
      | some b =>
        match hexDecodeChars rest with
        | .error e => .error e
        | .ok bs => .ok ((a * 16 + b) :: bs)

/-- Go `hex.DecodeString`. -/
def hexDecodeString (s : String) : Except Err Bytes :=
  hexDecodeChars s.toList

def hexDigit (n : Nat) : Char :=
  if n < 10 then Char.ofNat (48 + n) else Char.ofNat (97 + (n - 10))

/-- Go `hex.EncodeToString`. -/
def hexEncodeToString (bs : Bytes) : String :=
  String.mk (bs.flatMap (fun b => [hexDigit (b / 16 % 16), hexDigit (b % 16)]))

/-- Go `b2h` of `service.go`. -/
def b2h (buf : Bytes) : String :=
  hexEncodeToString buf

/-! ## Data model -/

/-- The swap type constants; a value received on the wire may be neither. -/
inductive SwapType where
  | SWAPTYPE_IN
  | SWAPTYPE_OUT
  | other (n : Nat)
  deriving DecidableEq, Repr

inductive SwapState where
  | SWAPSTATE_CREATED
  | SWAPSTATE_REQUEST_SENT
  | SWAPSTATE_REQUEST_RECEIVED
  | SWAPSTATE_OPENING_TX_PREPARED
  | SWAPSTATE_OPENING_TX_BROADCASTED
  | SWAPSTATE_WAITING_FOR_TX
  | SWAPSTATE_CLAIMED_PREIMAGE
  | SWAPSTATE_REFUNDED_TIMEOUT
  | SWAPSTATE_ABORTED
  deriving DecidableEq, Repr

open SwapType SwapState

/-- The swap record, with the fields `service.go` reads and writes (`Typ` is
the Go field `Type`). -/
structure Swap where
  Id : String
  Typ : SwapType
  State : SwapState
  PeerNodeId : String
  Amount : Nat
  ChannelId : String
  TakerPubkeyHash : String := ""
  MakerPubkeyHash : String := ""
  PHash : Bytes := []
  Payreq : String := ""
  OpeningTxId : String := ""
  ClaimTxId : String := ""
  deriving DecidableEq, Repr

/-- The wire message `SwapRequest` (`Typ` is the Go field `Type`). -/
structure SwapRequest where
  SwapId : String
  ChannelId : String
  Amount : Nat
  Typ : SwapType
  TakerPubkeyHash : String
  deriving DecidableEq, Repr

structure MakerResponse where
  SwapId : String
  MakerPubkeyHash : String
  Invoice : String
  TxId : String
  deriving DecidableEq, Repr

/-- A message handed to `PeerCommunicator.SendMessage`. -/
inductive Message where
  | request (r : SwapRequest)
  | response (r : MakerResponse)
  deriving DecidableEq, Repr

/-- The decoded invoice returned by `LightningClient.DecodePayreq`. -/
structure Invoice where
  PHash : Bytes
  Amount : Nat
  deriving DecidableEq, Repr

structure TxOutput where
  Asset : Bytes
  Value : Bytes
  Script : Bytes
  deriving DecidableEq, Repr

structure TxInput where
  Hash : Bytes
  Index : Nat
  Witness : List Bytes := []
  deriving DecidableEq, Repr

structure Transaction where
  Version : Nat
  Flag : Nat
  Locktime : Nat
  Inputs : List TxInput
  Outputs : List TxOutput
  deriving DecidableEq, Repr

/-- A partially signed transaction: the unsigned transaction and the data
attached to it by the updater, the signer and the finalizer. -/
structure Pset where
  UnsignedTx : Transaction
  Attached : List Bytes := []
  deriving DecidableEq, Repr

/-- A wallet UTXO. -/
structure Utxo where
  TxId : String
  VOut : Nat
  Value : Nat
  deriving DecidableEq, Repr

/-- The `payment.Payment` fields used by the service. -/
structure Payment where
  Script : Bytes
  WitnessScript : Bytes
  deriving DecidableEq, Repr

inductive Network where
  | Liquid
  | Regtest
  deriving DecidableEq, Repr

/-- Go `transaction.NewTxOutput`. -/
def NewTxOutput (asset value script : Bytes) : TxOutput :=
  { Asset := asset, Value := value, Script := script }

/-- Go `transaction.NewTxInput`. -/
def NewTxInput (hash : Bytes) (index : Nat) : TxInput :=
  { Hash := hash, Index := index }

/-! ## Collaborators -/

/-- Everything `service.go` calls but does not define: the collaborators
behind the interfaces `Wallet`, `wallet.BlockchainService`,
`LightningClient` and `lightning.PeerCommunicator`, the helpers of the
packages `swap`, `lightning` and `liquid`, the library functions of
`go-elements` and `btcec`, the random source, and the two configuration
fields `network` and `asset` of `Service`. -/
structure World where
  network : Network
  asset : Bytes
  /-- Go `NewSwap(type, amount, peerNodeId, channelId)`. -/
  NewSwap : SwapType → Nat → String → String → Swap
  /-- Go `Wallet.GetPubkey`, as the compressed serialization of the key. -/
  GetPubkey : Except Err Bytes
  /-- Go `Wallet.GetPrivKey`. -/
  GetPrivKey : Except Err Bytes
  /-- Go `Wallet.GetUtxos(amount)`: the selected UTXOs and the change. -/
  GetUtxos : Nat → Except Err (List Utxo × Nat)
  /-- Go `BlockchainService.GetBlockHeight`. -/
  GetBlockHeight : Except Err Nat
  WalletUtxosToTxInputs : List Utxo → Except Err (List TxInput)
  FetchTxHex : String → Except Err String
  BroadcastTransaction : String → Except Err String
  /-- Go `LightningClient.GetPayreq(amount, preimage, label)`. -/
  GetPayreq : Nat → String → String → Except Err String
  DecodePayreq : String → Except Err Invoice
  /-- Go `LightningClient.PayInvoice(payreq)`: the preimage in hex. -/
  PayInvoice : String → Except Err String
  /-- Go `PeerCommunicator.SendMessage(peerId, message)`. -/
  SendMessage : String → Message → Except Err Unit
  /-- Go `rand.Read` filling a fresh `lightning.Preimage`. -/
  randPreimage : Except Err Bytes
  /-- Go `Preimage.Hash`. -/
  preimageHash : Bytes → Bytes
  /-- Go `Preimage.String`. -/
  preimageString : Bytes → String
  /-- Go `liquid.GetFeeOutput(fee)`. -/
  GetFeeOutput : Nat → Except Err TxOutput
  /-- Go `liquid.GetOpeningTxScript(first, second, pHash, locktimeHeight)`. -/
  GetOpeningTxScript : Bytes → Bytes → Bytes → Int → Except Err Bytes
  /-- Go `liquid.SignTransaction(p, keys, scripts, false, nil)`. -/
  SignTransaction : Pset → List Bytes → List Bytes → Except Err Pset
  /-- Go `payment.FromPublicKey(pubkey, net, nil)`. -/
  FromPublicKey : Bytes → Network → Payment
  /-- Go `payment.FromPayment` of a payment holding a script and a network. -/
  FromPayment : Bytes → Network → Except Err Payment
  /-- Go `elementsutil.SatoshiToElementsValue`. -/
  SatoshiToElementsValue : Nat → Except Err Bytes
  /-- Go `elementsutil.ElementsToSatoshiValue`. -/
  ElementsToSatoshiValue : Bytes → Except Err Nat
  /-- Go `pset.New(inputs, outputs, version, locktime)`. -/
  psetNew : List TxInput → List TxOutput → Nat → Nat → Except Err Pset
  /-- Go `pset.NewUpdater`. -/
  NewUpdater : Pset → Except Err Pset
  /-- Go `Updater.AddInNonWitnessUtxo(tx, index)`. -/
  AddInNonWitnessUtxo : Pset → Transaction → Nat → Except Err Pset
  /-- Go `pset.FinalizeAll`. -/
  FinalizeAll : Pset → Except Err Pset
  /-- Go `pset.Extract`. -/
  Extract : Pset → Except Err Transaction
  /-- Go `Transaction.ToHex`. -/
  ToHex : Transaction → Except Err String
  /-- Go `transaction.NewTxFromHex`. -/
  NewTxFromHex : String → Except Err Transaction
  /-- Go `Transaction.WitnessHash`. -/
  WitnessHash : Transaction → Bytes
  /-- Go `Transaction.HashForWitnessV0(index, script, value, SigHashAll)`. -/
  HashForWitnessV0 : Transaction → Nat → Bytes → Bytes → Bytes
  /-- Go `PrivateKey.Sign` followed by `Signature.Serialize`. -/
  Sign : Bytes → Bytes → Except Err Bytes

/-- Go `txscript.SigHashAll`. -/
def SigHashAll : Nat := 1

/-! ## Service state -/

/-- An externally visible step of the service. Store writes are logged when
they succeed; calls to the peer, the Lightning node and the chain are logged
when they are made. -/
inductive Event where
  | storeCreate (s : Swap)
  | storeUpdate (s : Swap)
  | sendMessage (peer : String) (m : Message)
  | getPayreq (amount : Nat) (preimage : String) (label : String)
  | payInvoice (payreq : String)
  | broadcast (txHex : String)
  deriving DecidableEq, Repr

/-- The mutable state around a `Service`: the records held by the store, the
in-memory watch list and the trace of steps taken so far. -/
structure St where
  store : List Swap
  txWatchList : List (String × String)
  trace : List Event
  deriving DecidableEq, Repr

def St.emit (st : St) (e : Event) : St :=
  { st with trace := st.trace ++ [e] }

/-- Modelled from the spec: the implementation behind the `SwapStore`
interface is not part of `service.go`. `get_by_id(id)` fails with
`NotFound` when no record has that id and otherwise returns the record. -/
def storeGetById (store : List Swap) (id : String) : Except Err Swap :=
  match store.find? (fun s => decide (s.Id = id)) with
  | some s => .ok s
  | none => .error .NotFound

/-- Modelled from the spec: the implementation behind the `SwapStore`
interface is not part of `service.go`. `create(swap)` fails with
`Duplicate` if the id exists and otherwise adds the record. -/
def storeCreate (store : List Swap) (s : Swap) : Except Err (List Swap) :=
  if store.any (fun x => decide (x.Id = s.Id)) then .error .Duplicate
  else .ok (store ++ [s])

/-- Modelled from the spec: the implementation behind the `SwapStore`
interface is not part of `service.go`. `update(swap)` fails with
`NotFound` if the id is absent and otherwise replaces the record whole. -/
def storeUpdate (store : List Swap) (s : Swap) : Except Err (List Swap) :=
  if store.any (fun x => decide (x.Id = s.Id)) then
    .ok (store.map (fun x => if x.Id = s.Id then s else x))
  else .error .NotFound

/-- Assignment `m[k] = v` on the watch list `map[string]string`. -/
def watchSet (m : List (String × String)) (k v : String) : List (String × String) :=
  (k, v) :: m.filter (fun p => decide (p.1 ≠ k))

/-! ## `getSwapScript` and `CheckTransaction` -/

/-- Go `Service.getSwapScript`. -/
def getSwapScript (w : World) (swap : Swap) : Except Err Bytes :=
  match hexDecodeString swap.TakerPubkeyHash with
  | .error e => .error e
  | .ok takerPubkeyHashBytes =>
    match hexDecodeString swap.MakerPubkeyHash with
    | .error e => .error e
    | .ok makerPubkeyHashBytes =>
      match w.GetOpeningTxScript makerPubkeyHashBytes takerPubkeyHashBytes swap.PHash
          (LOCKTIME : Int) with
      | .error e => .error e
      | .ok script => .ok script

/-- Go `Service.CheckTransaction`. Indexing `tx.Outputs[0]` panics when the
transaction has no output. -/
def CheckTransaction (w : World) (swap : Swap) (tx : Transaction) : Res Unit :=
  match getSwapScript w swap with
  | .error e => .err e
  | .ok script =>
    match tx.Outputs with
    | [] => .panic "index out of range [0] with length 0"
    | out0 :: _ =>
      if out0.Script ≠ script then
        .err (.msg "tx script does not match computed script")
      else
        match w.SatoshiToElementsValue swap.Amount with
        | .error e => .err e
        | .ok value =>
          if out0.Value ≠ value then
            .err (.msg "tx value does not match contract")
          else .ok ()

/-! ## `CreateOpeningTransaction` -/

/-- Modelled from the spec: `block_height() → u32`; the declaration of
`wallet.BlockchainService` is not part of `service.go`. This is the
expression `int64(blockHeight + LOCKTIME)` of `CreateOpeningTransaction`. -/
def spendingBlockHeight (blockHeight : Nat) : Int :=
  Int.ofNat ((blockHeight + LOCKTIME) % 2 ^ 32)

/-- Go `tx.Outputs[0]`. -/
def output0 (tx : Transaction) : Res TxOutput :=
  match tx.Outputs with
  | [] => .panic "index out of range [0] with length 0"
  | out0 :: _ => .ok out0

/-- Go `inputs[0]`. -/
def input0 (inputs : List TxInput) : Res TxInput :=
  match inputs with
  | [] => .panic "index out of range [0] with length 0"
  | in0 :: _ => .ok in0

/-- The block "Swap / calc cltv" of `CreateOpeningTransaction`, from
`GetBlockHeight` to `liquid.GetOpeningTxScript`: the redeem script the maker
builds for a swap record. -/
def openingRedeemScript (w : World) (swap : Swap) : Res Bytes := do
  let blockHeight ← Res.ofExcept w.GetBlockHeight
  let takerPubkeyHashBytes ← Res.ofExcept (hexDecodeString swap.TakerPubkeyHash)
  let makerPubkeyHashBytes ← Res.ofExcept (hexDecodeString swap.MakerPubkeyHash)
  Res.ofExcept (w.GetOpeningTxScript takerPubkeyHashBytes makerPubkeyHashBytes swap.PHash
    (spendingBlockHeight blockHeight))

/-- Go `CreateOpeningTransaction` up to `finalTx.ToHex()`: every step before the
broadcast, none of which writes to the store or reaches the peer. -/
def openingTxHex (w : World) (swap : Swap) : Res String := do
  let makerPubkey ← Res.ofExcept w.GetPubkey
  let makerPrivkey ← Res.ofExcept w.GetPrivKey
  let (txInputs, change) ← Res.ofExcept (w.GetUtxos (u64add swap.Amount FIXED_FEE))
  let feeOutput ← Res.ofExcept (w.GetFeeOutput FIXED_FEE)
  let p2pkh := w.FromPublicKey makerPubkey Network.Regtest
  let changeScript := p2pkh.Script
  let changeValue ← Res.ofExcept (w.SatoshiToElementsValue change)
  let changeOutput := NewTxOutput w.asset changeValue changeScript
  let redeemScript ← openingRedeemScript w swap
  let redeemPayment ← Res.ofExcept (w.FromPayment redeemScript w.network)
  let swapInValue ← Res.ofExcept (w.SatoshiToElementsValue swap.Amount)
  let redeemOutput := NewTxOutput w.asset swapInValue redeemPayment.WitnessScript
  let inputs ← Res.ofExcept (w.WalletUtxosToTxInputs txInputs)
  let outputs := [redeemOutput, changeOutput, feeOutput]
  let p ← Res.ofExcept (w.psetNew inputs outputs 2 0)
  let updater ← Res.ofExcept (w.NewUpdater p)
  let in0 ← input0 inputs
  let bobspendingTxHash ← Res.ofExcept (w.FetchTxHex (b2h in0.Hash))
  let bobFaucetTx ← Res.ofExcept (w.NewTxFromHex bobspendingTxHash)
  let p1 ← Res.ofExcept (w.AddInNonWitnessUtxo updater bobFaucetTx 0)
  let p2 ← Res.ofExcept (w.SignTransaction p1 [makerPrivkey] [p2pkh.Script])
  let p3 ← Res.ofExcept (w.FinalizeAll p2)
  let finalTx ← Res.ofExcept (w.Extract p3)
  Res.ofExcept (w.ToHex finalTx)

/-- Go `Service.CreateOpeningTransaction`: builds the opening transaction and
broadcasts it. -/
def CreateOpeningTransaction (w : World) (swap : Swap) (st : St) : Res String × St :=
  match openingTxHex w swap with
  | .err e => (.err e, st)
  | .panic m => (.panic m, st)
  | .ok txHex =>
    let st1 := st.emit (.broadcast txHex)
    match w.BroadcastTransaction txHex with
    | .error e => (.err e, st1)
    | .ok txId => (.ok txId, st1)

/-! ## `StartSwapIn` and `OnSwapRequest` -/

/-- Go `Service.StartSwapIn`. -/
def StartSwapIn (w : World) (peerNodeId channelId : String) (amount : Nat) (st : St) :
    Res Unit × St :=
  let swap := w.NewSwap SWAPTYPE_IN amount peerNodeId channelId
  match storeCreate st.store swap with
  | .error e => (.err e, st)
  | .ok store1 =>
    let st1 := { st with store := store1 }.emit (.storeCreate swap)
    match w.GetPubkey with
    | .error e => (.err e, st1)
    | .ok pubkey =>
      let request : SwapRequest :=
        { SwapId := swap.Id
          ChannelId := channelId
          Amount := amount
          Typ := SWAPTYPE_OUT
          TakerPubkeyHash := hexEncodeToString pubkey }
      let st2 := st1.emit (.sendMessage peerNodeId (.request request))
      match w.SendMessage peerNodeId (.request request) with
      | .error e => (.err e, st2)
      | .ok _ =>
        let swap1 := { swap with State := SWAPSTATE_REQUEST_SENT }
        match storeUpdate st2.store swap1 with
        | .error e => (.err e, st2)
        | .ok store2 =>
          (.ok (), { st2 with store := store2 }.emit (.storeUpdate swap1))

/-- Go `Service.OnSwapRequest`. -/
def OnSwapRequest (w : World) (senderNodeId : String) (request : SwapRequest) (st : St) :
    Res Unit × St :=
  let swap : Swap :=
    { Id := request.SwapId
      Typ := request.Typ
      State := SWAPSTATE_REQUEST_RECEIVED
      PeerNodeId := senderNodeId
      Amount := request.Amount
      ChannelId := request.ChannelId }
  match storeCreate st.store swap with
  | .error e => (.err e, st)
  | .ok store1 =>
    let st1 := { st with store := store1 }.emit (.storeCreate swap)
    match w.GetPubkey with
    | .error e => (.err e, st1)
    | .ok pubkey =>
      if request.Typ = SWAPTYPE_OUT then
        let swap1 := { swap with
          TakerPubkeyHash := request.TakerPubkeyHash
          MakerPubkeyHash := hexEncodeToString pubkey }
        match w.randPreimage with
        | .error e => (.err e, st1)
        | .ok preimage =>
          let pHash := w.preimageHash preimage
          let amount := u64mul (u64add request.Amount FIXED_FEE) 1000
          let st2 := st1.emit (.getPayreq amount (w.preimageString preimage) swap1.Id)
          match w.GetPayreq amount (w.preimageString preimage) swap1.Id with
          | .error e => (.err e, st2)
          | .ok payreq =>
            let swap2 := { swap1 with
              Payreq := payreq
              PHash := pHash
              State := SWAPSTATE_OPENING_TX_PREPARED }
            match storeUpdate st2.store swap2 with
            | .error e => (.err e, st2)
            | .ok store3 =>
              let st3 := { st2 with store := store3 }.emit (.storeUpdate swap2)
              match CreateOpeningTransaction w swap2 st3 with
              | (.err e, st4) => (.err e, st4)
              | (.panic m, st4) => (.panic m, st4)
              | (.ok txId, st4) =>
                let swap3 := { swap2 with
                  OpeningTxId := txId
                  State := SWAPSTATE_OPENING_TX_BROADCASTED }
                match storeUpdate st4.store swap3 with
                | .error e => (.err e, st4)
                | .ok store5 =>
                  let st5 := { st4 with store := store5 }.emit (.storeUpdate swap3)
                  let response : MakerResponse :=
                    { SwapId := swap3.Id
                      MakerPubkeyHash := swap3.MakerPubkeyHash
                      Invoice := payreq
                      TxId := swap3.OpeningTxId }
                  let st6 := st5.emit (.sendMessage swap3.PeerNodeId (.response response))
                  match w.SendMessage swap3.PeerNodeId (.response response) with
                  | .error e => (.err e, st6)
                  | .ok _ => (.ok (), st6)
      else (.ok (), st1)

/-! ## `OnMakerResponse`

`OnMakerResponse` assigns to the fields of the `*Swap` that
`SwapStore.GetById` returned before it decodes the invoice and checks the
amount. Whether those assignments reach the stored record before
`store.Update` depends on what the store hands out, and the store
implementation is not part of `service.go`; both possibilities are
modelled. -/

/-- What `SwapStore.GetById` hands out: a private copy of the stored record,
or a pointer to the record the store itself holds. -/
inductive StoreHandle where
  | copy
  | live
  deriving DecidableEq, Repr

/-- Assignment through a pointer to the stored record with the id of `s`: the
first record with that id, which is the one `GetById` finds, takes the field
values of `s`. -/
def storeAssign : List Swap → Swap → List Swap
  | [], _ => []
  | x :: rest, s => if x.Id = s.Id then s :: rest else x :: storeAssign rest s

/-- The service state after the handler has assigned to the record it got
from `GetById`, leaving it as `swap`: nothing changes for a copy, the stored
record changes at once for a live pointer. -/
def writeThrough (h : StoreHandle) (st : St) (swap : Swap) : St :=
  match h with
  | .copy => st
  | .live => { st with store := storeAssign st.store swap }

/-- Go `Service.OnMakerResponse`, for either kind of store handle. The
assignments of lines 317-320 and 327 are made through the record returned by
`GetById`, before the decode and amount checks. -/
def OnMakerResponseWith (h : StoreHandle) (w : World) (senderNodeId : String)
    (request : MakerResponse) (st : St) : Res Unit × St :=
  match storeGetById st.store request.SwapId with
  | .error e => (.err e, st)
  | .ok swap =>
    if swap.PeerNodeId ≠ senderNodeId then
      (.err (.msg "peer has changed, aborting"), st)
    else
      let swap1 := { swap with
        State := SWAPSTATE_WAITING_FOR_TX
        MakerPubkeyHash := request.MakerPubkeyHash
        Payreq := request.Invoice
        OpeningTxId := request.TxId }
      let st1 := writeThrough h st swap1
      match w.DecodePayreq swap1.Payreq with
      | .error e => (.err e, st1)
      | .ok invoice =>
        let swap2 := { swap1 with PHash := invoice.PHash }
        let st2 := writeThrough h st1 swap2
        if invoice.Amount > u64add swap2.Amount FIXED_FEE then
          (.err (.msg "invoice amount is to high"), st2)
        else
          match storeUpdate st2.store swap2 with
          | .error e => (.err e, st2)
          | .ok store3 =>
            let st3 := { st2 with store := store3 }.emit (.storeUpdate swap2)
            (.ok (), { st3 with txWatchList := watchSet st3.txWatchList swap2.Id swap2.OpeningTxId })

/-- Go `Service.OnMakerResponse` over a store whose `GetById` returns a
private copy of the record: the assignments made before `store.Update` stay
local to the handler. -/
def OnMakerResponse (w : World) (senderNodeId : String) (request : MakerResponse) (st : St) :
    Res Unit × St :=
  OnMakerResponseWith .copy w senderNodeId request st

/-! ## `ClaimTxWithPreimage` -/

/-- Go `ClaimTxWithPreimage` from `getSwapScript` to `spendingTx.ToHex()`: the
claim transaction spending output 0 of `tx` with the preimage. -/
def claimTxHex (w : World) (swap : Swap) (tx : Transaction) (preimage : String) :
    Res String := do
  let script ← Res.ofExcept (getSwapScript w swap)
  let pubkey ← Res.ofExcept w.GetPubkey
  let privkey ← Res.ofExcept w.GetPrivKey
  let p2pkh := w.FromPublicKey pubkey Network.Regtest
  let firstTxHash := w.WitnessHash tx
  let spendingInput := NewTxInput firstTxHash 0
  let out0 ← output0 tx
  let firstTxSats ← Res.ofExcept (w.ElementsToSatoshiValue out0.Value)
  let spendingSatsBytes ← Res.ofExcept (w.SatoshiToElementsValue (u64sub firstTxSats FIXED_FEE))
  let spendingOutput := NewTxOutput w.asset spendingSatsBytes p2pkh.Script
  let feeOutput ← Res.ofExcept (w.GetFeeOutput FIXED_FEE)
  let spendingTx : Transaction :=
    { Version := 2
      Flag := 0
      Locktime := 0
      Inputs := [spendingInput]
      Outputs := [spendingOutput, feeOutput] }
  let sigHash := w.HashForWitnessV0 spendingTx 0 script out0.Value
  let sig ← Res.ofExcept (w.Sign privkey sigHash)
  let sigWithHashType := sig ++ [SigHashAll]
  let preImageBytes ← Res.ofExcept (hexDecodeString preimage)
  let witness := [preImageBytes, sigWithHashType, script]
  let spendingTx1 := { spendingTx with Inputs := [{ spendingInput with Witness := witness }] }
  Res.ofExcept (w.ToHex spendingTx1)

/-- Go `Service.ClaimTxWithPreimage`. The swap record is passed by pointer; the
record as the function leaves it is part of the result. -/
def ClaimTxWithPreimage (w : World) (swap : Swap) (tx : Transaction) (st : St) :
    Res Unit × Swap × St :=
  match CheckTransaction w swap tx with
  | .err e => (.err e, swap, st)
  | .panic m => (.panic m, swap, st)
  | .ok _ =>
    let st1 := st.emit (.payInvoice swap.Payreq)
    match w.PayInvoice swap.Payreq with
    | .error e => (.err e, swap, st1)
    | .ok preimage =>
      match claimTxHex w swap tx preimage with
      | .err e => (.err e, swap, st1)
      | .panic m => (.panic m, swap, st1)
      | .ok spendingTxHex =>
        let st2 := st1.emit (.broadcast spendingTxHex)
        match w.BroadcastTransaction spendingTxHex with
        | .error e => (.err e, swap, st2)
        | .ok claimId =>
          let swap1 := { swap with
            ClaimTxId := claimId
            State := SWAPSTATE_CLAIMED_PREIMAGE }
          match storeUpdate st2.store swap1 with
          | .error e => (.err e, swap1, st2)
          | .ok store3 =>
            (.ok (), swap1, { st2 with store := store3 }.emit (.storeUpdate swap1))

/-! ## A concrete world

An instance of `World` in which every collaborator answers, used to run the
service on concrete inputs. The chain value encoding is the one of
`elementsutil`; the digest, the script layout, the invoice format and the
transaction serialization are small stand-ins for the libraries. -/

namespace Demo

/-- Big-endian bytes of `v`, `n` of them. -/
def beBytes : Nat → Nat → Bytes
  | 0, _ => []
  | n + 1, v => (v / 256 ^ n % 256) :: beBytes n v

/-- Value of a big-endian byte string. -/
def beValue (bs : Bytes) : Nat :=
  bs.foldl (fun acc b => acc * 256 + b) 0

/-- A 32-byte digest standing in for SHA-256. -/
def digest32 (bs : Bytes) : Bytes :=
  (List.range 32).map (fun i => bs.foldl (fun acc b => (acc * 131 + b + 7 * i + 1) % 251) (bs.length + i))

/-- The explicit (unconfidential) value encoding: prefix `1`, then the amount
as eight big-endian bytes. -/
def satoshiToElementsValue (v : Nat) : Except Err Bytes :=
  .ok (1 :: beBytes 8 (v % 2 ^ 64))

def elementsToSatoshiValue (bs : Bytes) : Except Err Nat :=
  match bs with
  | 1 :: rest => if rest.length = 8 then .ok (beValue rest) else .error (.collab "invalid elements value")
  | _ => .error (.collab "invalid elements value")

/-- An HTLC script layout: the hash lock and the first key on the preimage
branch, the lock height and the second key on the timeout branch. -/
def openingTxScript (first second pHash : Bytes) (locktimeHeight : Int) : Except Err Bytes :=
  .ok ([0xa8, 0x20] ++ pHash ++ [0x87, 0x63, 0x21] ++ first ++ [0x67, 0x04]
    ++ (beBytes 4 locktimeHeight.toNat).reverse ++ [0xb1, 0x75, 0x21] ++ second ++ [0x68, 0xac])

/-- The pay-to-witness-script-hash program `OP_0 <32-byte digest>`. -/
def fromPayment (script : Bytes) (_net : Network) : Except Err Payment :=
  if script = [] then .error (.collab "payment script can not be empty")
  else .ok { Script := script, WitnessScript := [0x00, 0x20] ++ digest32 script }

def fromPublicKey (pubkey : Bytes) (_net : Network) : Payment :=
  { Script := [0x76, 0xa9, 0x14] ++ (digest32 pubkey).take 20 ++ [0x88, 0xac], WitnessScript := [] }

/-- An invoice format: the amount as eight big-endian bytes followed by the
payment hash, in hex. The amount is the one handed to `GetPayreq`. -/
def getPayreq (amount : Nat) (preimage : String) (_label : String) : Except Err String :=
  match hexDecodeString preimage with
  | .error e => .error e
  | .ok pre => .ok (hexEncodeToString (beBytes 8 amount ++ digest32 pre))

def decodePayreq (payreq : String) : Except Err Invoice :=
  match hexDecodeString payreq with
  | .error e => .error e
  | .ok bs =>
    if bs.length = 40 then .ok { PHash := bs.drop 8, Amount := beValue (bs.take 8) }
    else .error (.collab "invalid payreq")

def preimage : Bytes := List.replicate 32 7

def makerPubkey : Bytes := 2 :: List.replicate 32 187

def takerPubkeyHex : String :=
  "03aaaaaaaaaaaaaaaaaaaaaaaaaaaaaaaaaaaaaaaaaaaaaaaaaaaaaaaaaaaaaaaa"

def serialize (tx : Transaction) : Bytes :=
  [tx.Version, tx.Flag, tx.Locktime]
    ++ tx.Inputs.flatMap (fun i => i.Hash ++ [i.Index] ++ i.Witness.flatMap id)
    ++ tx.Outputs.flatMap (fun o => o.Asset ++ o.Value ++ o.Script)

def faucetTx : Transaction :=
  { Version := 2, Flag := 0, Locktime := 0, Inputs := [],
    Outputs := [{ Asset := [], Value := 1 :: beBytes 8 1000000, Script := [] }] }

/-- The world: a maker wallet holding one UTXO of 1 000 000 sat, a chain at
block `height`, and a peer and a Lightning node that always answer. -/
def world (height : Nat) : World where
  network := Network.Regtest
  asset := []
  NewSwap := fun t amount peer chan =>
    { Id := "5a", Typ := t, State := SwapState.SWAPSTATE_CREATED, PeerNodeId := peer,
      Amount := amount, ChannelId := chan }
  GetPubkey := .ok makerPubkey
  GetPrivKey := .ok [42]
  GetUtxos := fun amount =>
    if amount ≤ 1000000 then .ok ([{ TxId := "fa", VOut := 0, Value := 1000000 }], 1000000 - amount)
    else .error (.collab "insufficient funds")
  GetBlockHeight := .ok height
  WalletUtxosToTxInputs := fun us =>
    .ok (us.map (fun u => { Hash := (hexDecodeString u.TxId).toOption.getD [], Index := u.VOut }))
  FetchTxHex := fun _ => .ok (hexEncodeToString (serialize faucetTx))
  BroadcastTransaction := fun txHex =>
    .ok (hexEncodeToString (digest32 ((hexDecodeString txHex).toOption.getD [])))
  GetPayreq := getPayreq
  DecodePayreq := decodePayreq
  PayInvoice := fun _ => .ok (hexEncodeToString preimage)
  SendMessage := fun _ _ => .ok ()
  randPreimage := .ok preimage
  preimageHash := digest32
  preimageString := hexEncodeToString
  GetFeeOutput := fun fee => .ok { Asset := [], Value := 1 :: beBytes 8 fee, Script := [] }
  GetOpeningTxScript := openingTxScript
  SignTransaction := fun p keys scripts =>
    .ok { p with Attached := p.Attached ++ keys.map digest32 ++ scripts }
  FromPublicKey := fromPublicKey
  FromPayment := fromPayment
  SatoshiToElementsValue := satoshiToElementsValue
  ElementsToSatoshiValue := elementsToSatoshiValue
  psetNew := fun inputs outputs version locktime =>
    .ok { UnsignedTx := { Version := version, Flag := 0, Locktime := locktime,
                          Inputs := inputs, Outputs := outputs } }
  NewUpdater := fun p => .ok p
  AddInNonWitnessUtxo := fun p tx _ => .ok { p with Attached := p.Attached ++ [serialize tx] }
  FinalizeAll := fun p => .ok p
  Extract := fun p => .ok p.UnsignedTx
  ToHex := fun tx => .ok (hexEncodeToString (serialize tx))
  NewTxFromHex := fun _ => .ok faucetTx
  WitnessHash := fun tx => digest32 (serialize tx)
  HashForWitnessV0 := fun tx idx script value => digest32 (serialize tx ++ [idx] ++ script ++ value)
  Sign := fun key hash => .ok (digest32 (key ++ hash))

/-- A swap-out request for 100 000 sat. -/
def request : SwapRequest :=
  { SwapId := "5a", ChannelId := "ch", Amount := 100000, Typ := SwapType.SWAPTYPE_OUT,
    TakerPubkeyHash := takerPubkeyHex }

def emptySt : St := { store := [], txWatchList := [], trace := [] }

/-- A record of that swap as a caller may hand it to `CheckTransaction` and
`ClaimTxWithPreimage`, with both keys, the payment hash and an invoice
filled in. -/
def takerSwap : Swap :=
  { Id := "5a", Typ := SwapType.SWAPTYPE_OUT, State := SwapState.SWAPSTATE_WAITING_FOR_TX,
    PeerNodeId := "maker", Amount := 100000, ChannelId := "ch",
    TakerPubkeyHash := takerPubkeyHex,
    MakerPubkeyHash := hexEncodeToString makerPubkey,
    PHash := digest32 preimage,
    Payreq := hexEncodeToString (beBytes 8 100500 ++ digest32 preimage),
    OpeningTxId := "a7" }

def takerPubkey : Bytes := 3 :: List.replicate 32 170

/-- The redeem script the maker builds at block height `height`. -/
def makerScript (height : Nat) : Bytes :=
  [0xa8, 0x20] ++ digest32 preimage ++ [0x87, 0x63, 0x21] ++ takerPubkey ++ [0x67, 0x04]
    ++ (beBytes 4 (height + 100)).reverse ++ [0xb1, 0x75, 0x21] ++ makerPubkey ++ [0x68, 0xac]

/-- The script `getSwapScript` computes for `takerSwap`. -/
def verifierScript : Bytes :=
  [0xa8, 0x20] ++ digest32 preimage ++ [0x87, 0x63, 0x21] ++ makerPubkey ++ [0x67, 0x04]
    ++ (beBytes 4 100).reverse ++ [0xb1, 0x75, 0x21] ++ takerPubkey ++ [0x68, 0xac]

/-- An opening transaction whose output 0 carries `script` and `value`
satoshi, followed by a change and a fee output. -/
def openingTx (script : Bytes) (value : Nat) : Transaction :=
  { Version := 2, Flag := 0, Locktime := 0,
    Inputs := [{ Hash := [0xfa], Index := 0 }],
    Outputs := [{ Asset := [], Value := 1 :: beBytes 8 value, Script := script },
                { Asset := [], Value := 1 :: beBytes 8 899500, Script := (fromPublicKey makerPubkey Network.Regtest).Script },
                { Asset := [], Value := 1 :: beBytes 8 500, Script := [] }] }

/-- The taker's node: the same collaborators, with the taker's wallet key. -/
def takerWorld : World :=
  { world 700000 with GetPubkey := .ok takerPubkey }

/-- The taker's record after `StartSwapIn` has sent the request. -/
def takerRequested : Swap :=
  { Id := "5a", Typ := SwapType.SWAPTYPE_IN, State := SwapState.SWAPSTATE_REQUEST_SENT,
    PeerNodeId := "maker", Amount := 100000, ChannelId := "ch" }

/-- The taker's service state while it waits for the maker's response. -/
def takerSt : St :=
  { store := [takerRequested], txWatchList := [], trace := [] }

/-- An invoice of the demo format for `amount` units. -/
def invoiceFor (amount : Nat) : String :=
  hexEncodeToString (beBytes 8 amount ++ digest32 preimage)

/-- The response the maker sends for `request` at height 700 000: its
invoice is the one requested for (100 000 + 500) * 1000 = 100 500 000 msat. -/
def honestResponse : MakerResponse :=
  { SwapId := "5a",
    MakerPubkeyHash := "02bbbbbbbbbbbbbbbbbbbbbbbbbbbbbbbbbbbbbbbbbbbbbbbbbbbbbbbbbbbbbbbb",
    Invoice := "0000000005fd8220aac1d8ef0b223950677e95acc3daf10d243b52698097aec5dcf30f263d546b82",
    TxId := "aacaea0f2f4f6f8fafcfef1434547494b4d4f41939597999b9d9f91e3e5e7e9e" }

/-- A response whose invoice decodes to `amount` units. -/
def responseFor (amount : Nat) (txId : String) : MakerResponse :=
  { SwapId := "5a",
    MakerPubkeyHash := "02bbbbbbbbbbbbbbbbbbbbbbbbbbbbbbbbbbbbbbbbbbbbbbbbbbbbbbbbbbbbbbbb",
    Invoice := invoiceFor amount,
    TxId := txId }

/-- A stored swap of the largest `uint64` amount. -/
def hugeSwap : Swap :=
  { takerRequested with Amount := 2 ^ 64 - 1 }

def hugeSt : St :=
  { store := [hugeSwap], txWatchList := [], trace := [] }

/-- The taker's state once a response has been accepted: the record is in
`WAITING_FOR_TX` and the opening transaction is on the watch list. -/
def waitingSt : St :=
  { store := [takerSwap], txWatchList := [("5a", "a7")], trace := [] }

/-- The record a replayed response with transaction id `b8` leaves in the
store. -/
def replayedSwap : Swap :=
  { takerSwap with OpeningTxId := "b8" }

/-- The opening transaction the maker broadcasts for `request` at height
700 000, in the serialization of the demo world. -/
def openingTxHexLit : String :=
  "020000fa000100000000000186a00020ae0353a3f34898e83d8ddd3282d22777c71c6cbc1161b10656a6f64b9beb40900100000000000db9ac76a914777f878f979fa7afb7bfc7cfd7dfe7eff7040c1488ac0100000000000001f4"

/-- The maker's run of `OnSwapRequest` on `request` from an empty state. -/
def makerRun : Res Unit × St :=
  OnSwapRequest (world 700000) "taker" request emptySt

end Demo

/-! ## Ordering of steps in a trace -/

/-- In the trace `tr`, every step `e` that is an `effect` comes after a step
`e0` that authorises it (`auth e0 e`). -/
def PrecededBy (auth : Event → Event → Prop) (effect : Event → Prop)
    (tr : List Event) : Prop :=
  ∀ pre e post, tr = pre ++ e :: post → effect e → ∃ e0 ∈ pre, auth e0 e

/-- A store write creating the record of the swap that a `SwapRequest`
message names. -/
def CreatedBefore (e0 e : Event) : Prop :=
  ∃ s peer r, e0 = .storeCreate s ∧ e = .sendMessage peer (.request r) ∧ s.Id = r.SwapId

/-- A store write of the record in state `OPENING_TX_PREPARED`, with the
payment hash of the generated preimage. -/
def PreparedBefore (w : World) (request : SwapRequest) (e0 : Event) : Prop :=
  ∃ s preimage, e0 = .storeUpdate s ∧ s.Id = request.SwapId ∧
    s.State = SWAPSTATE_OPENING_TX_PREPARED ∧
    w.randPreimage = .ok preimage ∧ s.PHash = w.preimageHash preimage

/-- A store write of the record in state `OPENING_TX_BROADCASTED` with the
opening transaction id that the `MakerResponse` message carries. -/
def BroadcastedBefore (e0 e : Event) : Prop :=
  ∃ s peer r, e0 = .storeUpdate s ∧ e = .sendMessage peer (.response r) ∧
    s.Id = r.SwapId ∧ s.State = SWAPSTATE_OPENING_TX_BROADCASTED ∧
    s.OpeningTxId = r.TxId

def isRequestSend (e : Event) : Prop :=
  ∃ peer r, e = .sendMessage peer (.request r)

def isResponseSend (e : Event) : Prop :=
  ∃ peer r, e = .sendMessage peer (.response r)

def isBroadcast (e : Event) : Prop :=
  ∃ txHex, e = .broadcast txHex

/-- The stored record after the handler has assigned to the record it got
from `GetById`: the record as it was (`before`) when the store handed out a
copy, the record as the handler left it (`after`) when it handed out a live
pointer. -/
def storedAfter (h : StoreHandle) (before after : Swap) : Swap :=
  match h with
  | .copy => before
  | .live => after

/-- The record after the assignments of lines 317-320 of `OnMakerResponse`,
before the invoice is decoded. -/
def assignedSwap (swap : Swap) (request : MakerResponse) : Swap :=
  { swap with
    State := SWAPSTATE_WAITING_FOR_TX
    MakerPubkeyHash := request.MakerPubkeyHash
    Payreq := request.Invoice
    OpeningTxId := request.TxId }

/-- The record `OnMakerResponse` writes for a stored record `swap`, a
response and its decoded invoice. -/
def acceptedSwap (swap : Swap) (request : MakerResponse) (invoice : Invoice) : Swap :=
  { swap with
    State := SWAPSTATE_WAITING_FOR_TX
    MakerPubkeyHash := request.MakerPubkeyHash
    Payreq := request.Invoice
    OpeningTxId := request.TxId
    PHash := invoice.PHash }


/-! ## Lemmas on the store -/

theorem storeGetById_id {store : List Swap} {id : String} {s : Swap}
    (h : storeGetById store id = .ok s) : s.Id = id := by
  unfold storeGetById at h
  split at h
  · rename_i s0 hf
    have hs : s0 = s := by injection h
    subst hs
    simpa using List.find?_some hf
  · cases h

theorem storeGetById_mem {store : List Swap} {id : String} {s : Swap}
    (h : storeGetById store id = .ok s) : s ∈ store := by
  unfold storeGetById at h
  split at h
  · rename_i s0 hf
    have hs : s0 = s := by injection h
    subst hs
    exact List.mem_of_find?_eq_some hf
  · cases h

theorem store_any_of_mem {store : List Swap} {s : Swap} {id : String}
    (hm : s ∈ store) (hid : s.Id = id) :
    store.any (fun x => decide (x.Id = id)) = true := by
  rw [List.any_eq_true]
  exact ⟨s, hm, by simpa using hid⟩

/-! ## Claims -/

/-- C1: whenever `CheckTransaction` fails on a swap record and a transaction,
`ClaimTxWithPreimage` returns that same error and does nothing else: the
service state is untouched, so the trace gains no `payInvoice` and no
`broadcast` step, and the record is left as it was, `ClaimTxId` included. -/
theorem ClaimTxWithPreimage_check_failure (w : World) (swap : Swap) (tx : Transaction)
    (st : St) (e : Err) (h : CheckTransaction w swap tx = .err e) :
    ClaimTxWithPreimage w swap tx st = (.err e, swap, st) ∧
      (ClaimTxWithPreimage w swap tx st).2.2.trace = st.trace ∧
      (ClaimTxWithPreimage w swap tx st).2.1.ClaimTxId = swap.ClaimTxId := by
  have key : ClaimTxWithPreimage w swap tx st = (.err e, swap, st) := by
    unfold ClaimTxWithPreimage
    rw [h]
  rw [key]
  exact ⟨rfl, rfl, rfl⟩

set_option maxRecDepth 100000 in
/-- Seed scenario of C1: the opening transaction carries 99 999 sat instead
of 100 000; the check fails on the value and the claim stops there. -/
theorem ClaimTxWithPreimage_check_failure_witness :
    CheckTransaction (Demo.world 700000) Demo.takerSwap
        (Demo.openingTx Demo.verifierScript 99999)
      = .err (.msg "tx value does not match contract") ∧
    ClaimTxWithPreimage (Demo.world 700000) Demo.takerSwap
        (Demo.openingTx Demo.verifierScript 99999) Demo.emptySt
      = (.err (.msg "tx value does not match contract"), Demo.takerSwap, Demo.emptySt) :=
  ⟨by decide,
   (ClaimTxWithPreimage_check_failure (Demo.world 700000) Demo.takerSwap
      (Demo.openingTx Demo.verifierScript 99999) Demo.emptySt _ (by decide)).1⟩

/-- What `CheckTransaction` accepts, for a transaction with an output 0: the
script of output 0 is the script returned by `getSwapScript` itself and the
value is the chain encoding of the amount. -/
theorem CheckTransaction_ok_iff (w : World) (swap : Swap) (tx : Transaction)
    (out0 : TxOutput) (rest : List TxOutput) (ht : tx.Outputs = out0 :: rest) :
    CheckTransaction w swap tx = .ok () ↔
      getSwapScript w swap = .ok out0.Script ∧
        w.SatoshiToElementsValue swap.Amount = .ok out0.Value := by
  unfold CheckTransaction
  rw [ht]
  cases hs : getSwapScript w swap with
  | error e => simp
  | ok script =>
    cases hv : w.SatoshiToElementsValue swap.Amount with
    | error e =>
      by_cases h1 : out0.Script = script <;> simp [h1]
    | ok value =>
      by_cases h1 : out0.Script = script
      · by_cases h2 : out0.Value = value
        · simp [h1, h2]
        · have h3 : ¬ value = out0.Value := fun h => h2 h.symm
          simp [h1, h2, h3]
      · have h3 : ¬ script = out0.Script := fun h => h1 h.symm
        simp [h1, h3]

/-- C2: `CheckTransaction` compares output 0 with the redeem script returned
by `getSwapScript`, not with its witness program. Whenever the witness
program of that script differs from the script, a transaction whose output 0
carries the witness program and the encoded amount is rejected with "tx
script does not match computed script", and one carrying the bare redeem
script is accepted. -/
theorem CheckTransaction_rejects_witness_program (w : World) (swap : Swap)
    (tx : Transaction) (out0 : TxOutput) (rest : List TxOutput) (script value : Bytes)
    (pay : Payment)
    (hs : getSwapScript w swap = .ok script)
    (_hp : w.FromPayment script w.network = .ok pay)
    (hne : pay.WitnessScript ≠ script)
    (hv : w.SatoshiToElementsValue swap.Amount = .ok value)
    (ht : tx.Outputs = out0 :: rest)
    (hval : out0.Value = value) :
    (out0.Script = pay.WitnessScript →
        CheckTransaction w swap tx = .err (.msg "tx script does not match computed script")) ∧
      (out0.Script = script → CheckTransaction w swap tx = .ok ()) := by
  constructor
  · intro ho
    unfold CheckTransaction
    rw [hs, ht]
    have h1 : out0.Script ≠ script := by rw [ho]; exact hne
    simp [h1]
  · intro ho
    rw [CheckTransaction_ok_iff w swap tx out0 rest ht, hs, hv, ho, hval]
    exact ⟨rfl, rfl⟩

set_option maxRecDepth 100000 in
/-- Failing input of C2: output 0 pays 100 000 sat to the witness program of
the script re-derived from the record, and the check rejects it. -/
theorem CheckTransaction_rejects_witness_program_witness :
    CheckTransaction (Demo.world 700000) Demo.takerSwap
        (Demo.openingTx ([0x00, 0x20] ++ Demo.digest32 Demo.verifierScript) 100000)
      = .err (.msg "tx script does not match computed script") :=
  (CheckTransaction_rejects_witness_program (Demo.world 700000) Demo.takerSwap
    (Demo.openingTx ([0x00, 0x20] ++ Demo.digest32 Demo.verifierScript) 100000)
    _ _ Demo.verifierScript (1 :: Demo.beBytes 8 100000)
    { Script := Demo.verifierScript,
      WitnessScript := [0x00, 0x20] ++ Demo.digest32 Demo.verifierScript }
    (by decide) (by decide) (by decide) (by decide) rfl rfl).1 rfl

/-- The call `getSwapScript` makes to the script builder. -/
theorem getSwapScript_eq (w : World) (swap : Swap) (t m : Bytes)
    (ht : hexDecodeString swap.TakerPubkeyHash = .ok t)
    (hm : hexDecodeString swap.MakerPubkeyHash = .ok m) :
    getSwapScript w swap = w.GetOpeningTxScript m t swap.PHash (100 : Int) := by
  unfold getSwapScript
  rw [ht, hm]
  have hL : ((LOCKTIME : Nat) : Int) = 100 := rfl
  simp only [hL]
  cases w.GetOpeningTxScript m t swap.PHash 100 <;> rfl

/-- C3: with the chain at height 0, so that both sides use the expiry 100,
`CreateOpeningTransaction` hands the script builder the taker key first and
the maker key second, while `getSwapScript` hands it the maker key first and
the taker key second. -/
theorem getSwapScript_key_positions (w : World) (swap : Swap) (t m : Bytes)
    (ht : hexDecodeString swap.TakerPubkeyHash = .ok t)
    (hm : hexDecodeString swap.MakerPubkeyHash = .ok m)
    (hh : w.GetBlockHeight = .ok 0) :
    openingRedeemScript w swap
        = Res.ofExcept (w.GetOpeningTxScript t m swap.PHash (100 : Int)) ∧
      Res.ofExcept (getSwapScript w swap)
        = Res.ofExcept (w.GetOpeningTxScript m t swap.PHash (100 : Int)) := by
  constructor
  · show Res.bind _ _ = _
    rw [hh, ht, hm]
    rfl
  · rw [getSwapScript_eq w swap t m ht hm]

set_option maxRecDepth 100000 in
/-- Failing input of C3: for the same record and the same expiry the maker's
redeem script and the re-derived one are different byte strings. -/
theorem getSwapScript_key_positions_witness :
    openingRedeemScript (Demo.world 0) Demo.takerSwap = .ok (Demo.makerScript 0) ∧
      getSwapScript (Demo.world 0) Demo.takerSwap = .ok Demo.verifierScript ∧
      Demo.makerScript 0 ≠ Demo.verifierScript :=
  ⟨(getSwapScript_key_positions (Demo.world 0) Demo.takerSwap Demo.takerPubkey
      Demo.makerPubkey (by decide) (by decide) rfl).1.trans (by decide),
   by decide, by decide⟩

/-- C4: at block height `h` (positive, `h + LOCKTIME` below `2^32`) the maker
builds the redeem script with expiry `h + 100`, while `getSwapScript` always
passes the constant 100, which is a different expiry. -/
theorem getSwapScript_expiry_constant (w : World) (swap : Swap) (t m : Bytes) (h : Nat)
    (ht : hexDecodeString swap.TakerPubkeyHash = .ok t)
    (hm : hexDecodeString swap.MakerPubkeyHash = .ok m)
    (hh : w.GetBlockHeight = .ok h) (hpos : 0 < h) (hlt : h + LOCKTIME < 2 ^ 32) :
    spendingBlockHeight h = (h : Int) + 100 ∧
      openingRedeemScript w swap
        = Res.ofExcept (w.GetOpeningTxScript t m swap.PHash ((h : Int) + 100)) ∧
      Res.ofExcept (getSwapScript w swap)
        = Res.ofExcept (w.GetOpeningTxScript m t swap.PHash (100 : Int)) ∧
      (h : Int) + 100 ≠ 100 := by
  have hsp : spendingBlockHeight h = (h : Int) + 100 := by
    unfold spendingBlockHeight
    rw [Nat.mod_eq_of_lt hlt]
    simp [LOCKTIME]
  refine ⟨hsp, ?_, ?_, by omega⟩
  · show Res.bind _ _ = _
    rw [hh, ht, hm, ← hsp]
    rfl
  · rw [getSwapScript_eq w swap t m ht hm]

set_option maxRecDepth 100000 in
/-- Failing input of C4: at height 700 000 the maker's script carries the
expiry 700 100 and the re-derived script carries 100. -/
theorem getSwapScript_expiry_constant_witness :
    spendingBlockHeight 700000 = 700100 ∧
      openingRedeemScript (Demo.world 700000) Demo.takerSwap
        = Res.ofExcept (Demo.openingTxScript Demo.takerPubkey Demo.makerPubkey
            Demo.takerSwap.PHash 700100) ∧
      Res.ofExcept (getSwapScript (Demo.world 700000) Demo.takerSwap)
        = Res.ofExcept (Demo.openingTxScript Demo.makerPubkey Demo.takerPubkey
            Demo.takerSwap.PHash 100) :=
  have h := getSwapScript_expiry_constant (Demo.world 700000) Demo.takerSwap Demo.takerPubkey
    Demo.makerPubkey 700000 (by decide) (by decide) rfl (by decide) (by decide)
  ⟨h.1, h.2.1, h.2.2.1⟩

/-- C5: a `MakerResponse` for a stored swap that comes from a node other than
the recorded peer is rejected with an error, and the whole service state
(store, watch list, trace) is left as it was. -/
theorem OnMakerResponse_peer_mismatch (w : World) (senderNodeId : String)
    (request : MakerResponse) (st : St) (swap : Swap)
    (hget : storeGetById st.store request.SwapId = .ok swap)
    (hne : swap.PeerNodeId ≠ senderNodeId) :
    OnMakerResponse w senderNodeId request st
      = (.err (.msg "peer has changed, aborting"), st) := by
  unfold OnMakerResponse OnMakerResponseWith
  rw [hget]
  simp [hne]

/-- C8: a `SwapRequest` whose id is already in the store makes `OnSwapRequest`
return the store's `Duplicate` error with the service state unchanged: no
record is touched and the trace gains no invoice request, no broadcast and no
message. -/
theorem OnSwapRequest_duplicate (w : World) (senderNodeId : String) (request : SwapRequest)
    (st : St) (s : Swap) (hm : s ∈ st.store) (hid : s.Id = request.SwapId) :
    OnSwapRequest w senderNodeId request st = (.err .Duplicate, st) := by
  unfold OnSwapRequest storeCreate
  simp only []
  rw [store_any_of_mem hm hid]
  rfl

/-- Witness of C5: the response comes from `mallory`, the record names
`maker`. -/
theorem OnMakerResponse_peer_mismatch_witness :
    OnMakerResponse Demo.takerWorld "mallory" Demo.honestResponse Demo.takerSt
      = (.err (.msg "peer has changed, aborting"), Demo.takerSt) :=
  OnMakerResponse_peer_mismatch Demo.takerWorld "mallory" Demo.honestResponse Demo.takerSt
    Demo.takerRequested (by decide) (by decide)

/-- Witness of C8: the request for swap `5a` arrives when `5a` is stored. -/
theorem OnSwapRequest_duplicate_witness :
    OnSwapRequest (Demo.world 700000) "taker" Demo.request Demo.takerSt
      = (.err .Duplicate, Demo.takerSt) :=
  OnSwapRequest_duplicate (Demo.world 700000) "taker" Demo.request Demo.takerSt
    Demo.takerRequested (by decide) (by decide)

/-! ### `OnMakerResponse`: the two outcomes of the amount check -/

theorem storeUpdate_of_get {store : List Swap} {id : String} {swap s : Swap}
    (hget : storeGetById store id = .ok swap) (hid : s.Id = swap.Id) :
    storeUpdate store s = .ok (store.map (fun x => if x.Id = s.Id then s else x)) := by
  unfold storeUpdate
  have h1 : swap.Id = s.Id := hid.symm
  rw [store_any_of_mem (storeGetById_mem hget) h1]
  rfl

theorem storeGetById_map_update (store : List Swap) (s : Swap)
    (h : ∃ x ∈ store, x.Id = s.Id) :
    storeGetById (store.map (fun x => if x.Id = s.Id then s else x)) s.Id = .ok s := by
  induction store with
  | nil => obtain ⟨x, hx, _⟩ := h; cases hx
  | cons a rest ih =>
    by_cases ha : a.Id = s.Id
    · simp [storeGetById, List.find?, ha]
    · have hr : ∃ x ∈ rest, x.Id = s.Id := by
        obtain ⟨x, hx, hxid⟩ := h
        rcases List.mem_cons.mp hx with rfl | hx
        · exact absurd hxid ha
        · exact ⟨x, hx, hxid⟩
      have := ih hr
      simp only [storeGetById, List.map, List.find?, ha, if_false, decide_False] at this ⊢
      exact this

/-- A response from the recorded peer whose decoded amount does not exceed
the `uint64` sum `Amount + FIXED_FEE` is applied. -/
theorem response_accepted (w : World) (senderNodeId : String) (request : MakerResponse)
    (st : St) (swap : Swap) (invoice : Invoice)
    (hget : storeGetById st.store request.SwapId = .ok swap)
    (hpeer : swap.PeerNodeId = senderNodeId)
    (hdec : w.DecodePayreq request.Invoice = .ok invoice)
    (hle : invoice.Amount ≤ u64add swap.Amount FIXED_FEE) :
    OnMakerResponse w senderNodeId request st =
      (.ok (),
       { store := st.store.map
           (fun x => if x.Id = swap.Id then acceptedSwap swap request invoice else x)
         txWatchList := watchSet st.txWatchList swap.Id request.TxId
         trace := st.trace ++ [.storeUpdate (acceptedSwap swap request invoice)] }) := by
  have hupd : storeUpdate st.store (acceptedSwap swap request invoice)
      = .ok (st.store.map
          (fun x => if x.Id = swap.Id then acceptedSwap swap request invoice else x)) :=
    storeUpdate_of_get hget rfl
  have hgt : ¬ invoice.Amount > u64add swap.Amount FIXED_FEE := by omega
  subst hpeer
  unfold OnMakerResponse OnMakerResponseWith
  rw [hget]
  simp only [ne_eq, not_true_eq_false, if_false, hdec, writeThrough]
  rw [if_neg hgt]
  unfold acceptedSwap at hupd
  rw [hupd]
  rfl

/-- A response from the recorded peer whose decoded amount exceeds the
`uint64` sum `Amount + FIXED_FEE` is rejected and changes nothing. -/
theorem overpay_rejected (w : World) (senderNodeId : String) (request : MakerResponse)
    (st : St) (swap : Swap) (invoice : Invoice)
    (hget : storeGetById st.store request.SwapId = .ok swap)
    (hpeer : swap.PeerNodeId = senderNodeId)
    (hdec : w.DecodePayreq request.Invoice = .ok invoice)
    (hgt : invoice.Amount > u64add swap.Amount FIXED_FEE) :
    OnMakerResponse w senderNodeId request st
      = (.err (.msg "invoice amount is to high"), st) := by
  subst hpeer
  unfold OnMakerResponse OnMakerResponseWith
  rw [hget]
  simp only [ne_eq, not_true_eq_false, if_false, hdec, writeThrough]
  rw [if_pos hgt]

set_option maxRecDepth 100000 in
/-- Counterexample to C6 as stated: the stored amount is `2^64 - 1`, so the
sum `Amount + FIXED_FEE` wraps to 499; an invoice of 500 units, far below
`amount_sat + FIXED_FEE`, is rejected as too high. -/
theorem OnMakerResponse_overpay_wraps :
    storeGetById Demo.hugeSt.store (Demo.responseFor 500 "a7").SwapId = .ok Demo.hugeSwap ∧
      Demo.hugeSwap.Amount = 2 ^ 64 - 1 ∧
      Demo.hugeSwap.PeerNodeId = "maker" ∧
      Demo.takerWorld.DecodePayreq (Demo.responseFor 500 "a7").Invoice
        = .ok { PHash := Demo.digest32 Demo.preimage, Amount := 500 } ∧
      OnMakerResponse Demo.takerWorld "maker" (Demo.responseFor 500 "a7") Demo.hugeSt
        = (.err (.msg "invoice amount is to high"), Demo.hugeSt) ∧
      ¬ (500 > Demo.hugeSwap.Amount + FIXED_FEE) := by
  refine ⟨by decide, by decide, by decide, by decide, by decide, by decide⟩

/-- C6, amended: for a stored swap and a response from the recorded peer whose
invoice decodes, `OnMakerResponse` accepts exactly when the decoded amount is
at most the `uint64` sum `(Amount + FIXED_FEE) mod 2^64` and otherwise rejects
with "invoice amount is to high". When `Amount + FIXED_FEE` fits in 64 bits,
an invoice of exactly `Amount + FIXED_FEE` is accepted, one unit more is
rejected, and rejection happens exactly when the amount exceeds
`Amount + FIXED_FEE`. -/
theorem OnMakerResponse_amount_check (w : World) (senderNodeId : String)
    (request : MakerResponse) (st : St) (swap : Swap) (invoice : Invoice)
    (hget : storeGetById st.store request.SwapId = .ok swap)
    (hpeer : swap.PeerNodeId = senderNodeId)
    (hdec : w.DecodePayreq request.Invoice = .ok invoice) :
    ((OnMakerResponse w senderNodeId request st).1 = .ok () ↔
        invoice.Amount ≤ (swap.Amount + FIXED_FEE) % 2 ^ 64) ∧
      ((OnMakerResponse w senderNodeId request st).1 = .err (.msg "invoice amount is to high") ↔
        (swap.Amount + FIXED_FEE) % 2 ^ 64 < invoice.Amount) ∧
      (swap.Amount + FIXED_FEE < 2 ^ 64 →
        (invoice.Amount = swap.Amount + FIXED_FEE →
          (OnMakerResponse w senderNodeId request st).1 = .ok ()) ∧
        (invoice.Amount = swap.Amount + FIXED_FEE + 1 →
          (OnMakerResponse w senderNodeId request st).1
            = .err (.msg "invoice amount is to high")) ∧
        ((OnMakerResponse w senderNodeId request st).1
            = .err (.msg "invoice amount is to high") ↔
          swap.Amount + FIXED_FEE < invoice.Amount)) := by
  have hiff1 : (OnMakerResponse w senderNodeId request st).1 = .ok () ↔
      invoice.Amount ≤ (swap.Amount + FIXED_FEE) % 2 ^ 64 := by
    by_cases hle : invoice.Amount ≤ u64add swap.Amount FIXED_FEE
    · rw [response_accepted w senderNodeId request st swap invoice hget hpeer hdec hle]
      exact ⟨fun _ => hle, fun _ => rfl⟩
    · have hgt : invoice.Amount > u64add swap.Amount FIXED_FEE := by omega
      rw [overpay_rejected w senderNodeId request st swap invoice hget hpeer hdec hgt]
      constructor
      · intro h; cases h
      · intro h; exact absurd h hle
  have hiff2 : (OnMakerResponse w senderNodeId request st).1
        = .err (.msg "invoice amount is to high") ↔
      (swap.Amount + FIXED_FEE) % 2 ^ 64 < invoice.Amount := by
    by_cases hle : invoice.Amount ≤ u64add swap.Amount FIXED_FEE
    · rw [response_accepted w senderNodeId request st swap invoice hget hpeer hdec hle]
      constructor
      · intro h; cases h
      · intro h; unfold u64add at hle; omega
    · have hgt : invoice.Amount > u64add swap.Amount FIXED_FEE := by omega
      rw [overpay_rejected w senderNodeId request st swap invoice hget hpeer hdec hgt]
      exact ⟨fun _ => hgt, fun _ => rfl⟩
  refine ⟨hiff1, hiff2, ?_⟩
  intro hfit
  have hmod : (swap.Amount + FIXED_FEE) % 2 ^ 64 = swap.Amount + FIXED_FEE :=
    Nat.mod_eq_of_lt hfit
  rw [hmod] at hiff1 hiff2
  exact ⟨fun h => hiff1.mpr (by omega), fun h => hiff2.mpr (by omega), hiff2⟩

set_option maxRecDepth 100000 in
/-- Witness of C6: on a stored swap of 100 000, an invoice of 100 500 units is
accepted and one of 100 501 units is rejected. -/
theorem OnMakerResponse_amount_check_witness :
    (OnMakerResponse Demo.takerWorld "maker" (Demo.responseFor 100500 "a7") Demo.takerSt).1
        = .ok () ∧
      (OnMakerResponse Demo.takerWorld "maker" (Demo.responseFor 100501 "a7") Demo.takerSt).1
        = .err (.msg "invoice amount is to high") :=
  ⟨((OnMakerResponse_amount_check Demo.takerWorld "maker" (Demo.responseFor 100500 "a7")
        Demo.takerSt Demo.takerRequested
        { PHash := Demo.digest32 Demo.preimage, Amount := 100500 }
        (by decide) (by decide) (by decide)).2.2 (by decide)).1 (by decide),
   ((OnMakerResponse_amount_check Demo.takerWorld "maker" (Demo.responseFor 100501 "a7")
        Demo.takerSt Demo.takerRequested
        { PHash := Demo.digest32 Demo.preimage, Amount := 100501 }
        (by decide) (by decide) (by decide)).2.2 (by decide)).2.1 (by decide)⟩

/-- C7: the invoice the maker requests is for `(Amount + FIXED_FEE) * 1000`
(millisatoshi). When the taker's decoder returns that amount, the check of
`OnMakerResponse` compares it with `Amount + FIXED_FEE` (satoshi), so the
honest response is rejected with "invoice amount is to high" and the taker's
state does not change. -/
theorem OnMakerResponse_rejects_honest_invoice (w : World) (senderNodeId : String)
    (request : MakerResponse) (st : St) (swap : Swap) (invoice : Invoice)
    (hget : storeGetById st.store request.SwapId = .ok swap)
    (hpeer : swap.PeerNodeId = senderNodeId)
    (hdec : w.DecodePayreq request.Invoice = .ok invoice)
    (hmsat : invoice.Amount = u64mul (u64add swap.Amount FIXED_FEE) 1000)
    (hfit : (swap.Amount + FIXED_FEE) * 1000 < 2 ^ 64) :
    OnMakerResponse w senderNodeId request st
      = (.err (.msg "invoice amount is to high"), st) := by
  apply overpay_rejected w senderNodeId request st swap invoice hget hpeer hdec
  have h1 : swap.Amount + FIXED_FEE < 2 ^ 64 := by omega
  have h2 : u64add swap.Amount FIXED_FEE = swap.Amount + FIXED_FEE := Nat.mod_eq_of_lt h1
  have h3 : u64mul (swap.Amount + FIXED_FEE) 1000 = (swap.Amount + FIXED_FEE) * 1000 :=
    Nat.mod_eq_of_lt hfit
  rw [hmsat, h2, h3]
  unfold FIXED_FEE
  omega

set_option maxRecDepth 100000 in
/-- Failing input of C7, end to end: the taker starts a swap of 100 000 sat,
the maker answers the request with `honestResponse`, whose invoice is for
100 500 000 msat, and the taker rejects that response, staying in
`REQUEST_SENT`. -/
theorem OnMakerResponse_rejects_honest_invoice_witness :
    StartSwapIn Demo.takerWorld "maker" "ch" 100000 Demo.emptySt
        = (.ok (), { Demo.takerSt with
            trace := [.storeCreate { Demo.takerRequested with
                        State := SWAPSTATE_CREATED },
                      .sendMessage "maker" (.request Demo.request),
                      .storeUpdate Demo.takerRequested] }) ∧
      (OnSwapRequest (Demo.world 700000) "taker" Demo.request Demo.emptySt).1 = .ok () ∧
      (OnSwapRequest (Demo.world 700000) "taker" Demo.request Demo.emptySt).2.trace.getLast?
        = some (.sendMessage "taker" (.response Demo.honestResponse)) ∧
      Demo.takerWorld.DecodePayreq Demo.honestResponse.Invoice
        = .ok { PHash := Demo.digest32 Demo.preimage, Amount := 100500000 } ∧
      OnMakerResponse Demo.takerWorld "maker" Demo.honestResponse Demo.takerSt
        = (.err (.msg "invoice amount is to high"), Demo.takerSt) :=
  ⟨by decide, by decide, by decide, by decide,
   OnMakerResponse_rejects_honest_invoice Demo.takerWorld "maker" Demo.honestResponse
     Demo.takerSt Demo.takerRequested
     { PHash := Demo.digest32 Demo.preimage, Amount := 100500000 }
     (by decide) (by decide) (by decide) (by decide) (by decide)⟩

/-! ### `OnMakerResponse` for either kind of store handle -/

theorem storeGetById_cons (x : Swap) (rest : List Swap) (id : String) :
    storeGetById (x :: rest) id = if x.Id = id then .ok x else storeGetById rest id := by
  by_cases hx : x.Id = id <;> simp [storeGetById, List.find?, hx]

theorem storeAssign_any (store : List Swap) (s : Swap) (id : String) :
    (storeAssign store s).any (fun x => decide (x.Id = id))
      = store.any (fun x => decide (x.Id = id)) := by
  induction store with
  | nil => rfl
  | cons x rest ih =>
    by_cases hx : x.Id = s.Id
    · simp [storeAssign, hx]
    · simp only [storeAssign, hx, if_false, List.any_cons, ih]

theorem storeGetById_storeAssign {store : List Swap} {id : String} {swap : Swap} (s : Swap)
    (hget : storeGetById store id = .ok swap) (hid : s.Id = id) :
    storeGetById (storeAssign store s) id = .ok s := by
  induction store with
  | nil => cases hget
  | cons x rest ih =>
    rw [storeGetById_cons] at hget
    by_cases hx : x.Id = id
    · have hxs : x.Id = s.Id := hx.trans hid.symm
      simp [storeAssign, hxs, storeGetById_cons, hid]
    · have hxs : ¬ x.Id = s.Id := fun h => hx (h.trans hid)
      rw [if_neg hx] at hget
      simp only [storeAssign, hxs, if_false, storeGetById_cons, hx]
      exact ih hget

theorem writeThrough_txWatchList (h : StoreHandle) (st : St) (s : Swap) :
    (writeThrough h st s).txWatchList = st.txWatchList := by
  cases h <;> rfl

theorem writeThrough_trace (h : StoreHandle) (st : St) (s : Swap) :
    (writeThrough h st s).trace = st.trace := by
  cases h <;> rfl

/-- The stored record after the two assignments of the handler: the record as
it was for a copy, the record as the handler left it for a live pointer. -/
theorem writeThrough_get (h : StoreHandle) (st : St) (id : String) (swap a b : Swap)
    (hget : storeGetById st.store id = .ok swap) (ha : a.Id = id) (hb : b.Id = id) :
    storeGetById (writeThrough h (writeThrough h st a) b).store id
      = .ok (storedAfter h swap b) := by
  cases h with
  | copy => exact hget
  | live => exact storeGetById_storeAssign b (storeGetById_storeAssign a hget ha) hb

/-- A response from a node other than the recorded peer is rejected before
any assignment, for either kind of store handle. -/
theorem with_peer_mismatch (h : StoreHandle) (w : World) (senderNodeId : String)
    (request : MakerResponse) (st : St) (swap : Swap)
    (hget : storeGetById st.store request.SwapId = .ok swap)
    (hne : swap.PeerNodeId ≠ senderNodeId) :
    OnMakerResponseWith h w senderNodeId request st
      = (.err (.msg "peer has changed, aborting"), st) := by
  unfold OnMakerResponseWith
  rw [hget]
  simp [hne]

/-- An overpaying response from the recorded peer is rejected after the
assignments to the record and before `store.Update`. -/
theorem with_overpay (h : StoreHandle) (w : World) (senderNodeId : String)
    (request : MakerResponse) (st : St) (swap : Swap) (invoice : Invoice)
    (hget : storeGetById st.store request.SwapId = .ok swap)
    (hpeer : swap.PeerNodeId = senderNodeId)
    (hdec : w.DecodePayreq request.Invoice = .ok invoice)
    (hgt : invoice.Amount > u64add swap.Amount FIXED_FEE) :
    OnMakerResponseWith h w senderNodeId request st
      = (.err (.msg "invoice amount is to high"),
         writeThrough h (writeThrough h st (assignedSwap swap request))
           (acceptedSwap swap request invoice)) := by
  subst hpeer
  unfold OnMakerResponseWith
  rw [hget]
  simp only [ne_eq, not_true_eq_false, if_false, hdec]
  rw [if_pos hgt]
  rfl

/-- A response from the recorded peer that passes the amount check is written
to the store and put on the watch list. -/
theorem with_accept (h : StoreHandle) (w : World) (senderNodeId : String)
    (request : MakerResponse) (st : St) (swap : Swap) (invoice : Invoice)
    (hget : storeGetById st.store request.SwapId = .ok swap)
    (hpeer : swap.PeerNodeId = senderNodeId)
    (hdec : w.DecodePayreq request.Invoice = .ok invoice)
    (hle : invoice.Amount ≤ u64add swap.Amount FIXED_FEE) :
    OnMakerResponseWith h w senderNodeId request st =
      (.ok (),
       { store := (writeThrough h (writeThrough h st (assignedSwap swap request))
             (acceptedSwap swap request invoice)).store.map
           (fun x => if x.Id = swap.Id then acceptedSwap swap request invoice else x)
         txWatchList := watchSet st.txWatchList swap.Id request.TxId
         trace := st.trace ++ [.storeUpdate (acceptedSwap swap request invoice)] }) := by
  have hid : swap.Id = request.SwapId := storeGetById_id hget
  have hget2 := writeThrough_get h st request.SwapId swap (assignedSwap swap request)
    (acceptedSwap swap request invoice) hget hid hid
  have hupd : storeUpdate
      (writeThrough h (writeThrough h st (assignedSwap swap request))
        (acceptedSwap swap request invoice)).store (acceptedSwap swap request invoice)
      = .ok ((writeThrough h (writeThrough h st (assignedSwap swap request))
            (acceptedSwap swap request invoice)).store.map
          (fun x => if x.Id = swap.Id then acceptedSwap swap request invoice else x)) := by
    cases h with
    | copy => exact storeUpdate_of_get hget2 rfl
    | live => exact storeUpdate_of_get hget2 rfl
  have hgt : ¬ invoice.Amount > u64add swap.Amount FIXED_FEE := by omega
  have htw := writeThrough_txWatchList h (writeThrough h st (assignedSwap swap request))
    (acceptedSwap swap request invoice)
  have htw1 := writeThrough_txWatchList h st (assignedSwap swap request)
  have htr := writeThrough_trace h (writeThrough h st (assignedSwap swap request))
    (acceptedSwap swap request invoice)
  have htr1 := writeThrough_trace h st (assignedSwap swap request)
  subst hpeer
  unfold OnMakerResponseWith
  rw [hget]
  simp only [ne_eq, not_true_eq_false, if_false, hdec]
  rw [if_neg hgt]
  unfold acceptedSwap assignedSwap at hupd htw htw1 htr htr1
  rw [hupd]
  simp only [St.emit, htw, htw1, htr, htr1]
  rfl

/-- The result `OnMakerResponse` returns does not depend on the kind of store
handle; only the state it leaves behind does. -/
theorem with_result_eq (h : StoreHandle) (w : World) (senderNodeId : String)
    (request : MakerResponse) (st : St) :
    (OnMakerResponseWith h w senderNodeId request st).1
      = (OnMakerResponse w senderNodeId request st).1 := by
  unfold OnMakerResponse
  cases hget : storeGetById st.store request.SwapId with
  | error e =>
    unfold OnMakerResponseWith
    rw [hget]
  | ok swap =>
    by_cases hpeer : swap.PeerNodeId = senderNodeId
    · cases hdec : w.DecodePayreq request.Invoice with
      | error e =>
        subst hpeer
        unfold OnMakerResponseWith
        rw [hget]
        simp only [ne_eq, not_true_eq_false, if_false, hdec]
      | ok invoice =>
        by_cases hle : invoice.Amount ≤ u64add swap.Amount FIXED_FEE
        · rw [with_accept h w senderNodeId request st swap invoice hget hpeer hdec hle,
            with_accept .copy w senderNodeId request st swap invoice hget hpeer hdec hle]
        · rw [with_overpay h w senderNodeId request st swap invoice hget hpeer hdec
              (by omega),
            with_overpay .copy w senderNodeId request st swap invoice hget hpeer hdec
              (by omega)]
    · rw [with_peer_mismatch h w senderNodeId request st swap hget hpeer,
        with_peer_mismatch .copy w senderNodeId request st swap hget hpeer]

set_option maxRecDepth 100000 in
/-- Counterexample to C9 as stated: the stored swap is already in
`WAITING_FOR_TX` with opening transaction `a7`; a further response from the
peer naming transaction `b8` is accepted and the stored record now carries
`b8`, whether the store hands out copies or live pointers. -/
theorem OnMakerResponse_replay_overwrites :
    storeGetById Demo.waitingSt.store (Demo.responseFor 100500 "b8").SwapId
        = .ok Demo.takerSwap ∧
      Demo.takerSwap.State = SWAPSTATE_WAITING_FOR_TX ∧
      Demo.takerSwap.OpeningTxId = "a7" ∧
      OnMakerResponse Demo.takerWorld "maker" (Demo.responseFor 100500 "b8") Demo.waitingSt
        = (.ok (), { store := [Demo.replayedSwap],
                     txWatchList := [("5a", "b8")],
                     trace := [.storeUpdate Demo.replayedSwap] }) ∧
      OnMakerResponseWith .live Demo.takerWorld "maker" (Demo.responseFor 100500 "b8")
          Demo.waitingSt
        = (.ok (), { store := [Demo.replayedSwap],
                     txWatchList := [("5a", "b8")],
                     trace := [.storeUpdate Demo.replayedSwap] }) ∧
      Demo.replayedSwap.OpeningTxId = "b8" := by
  refine ⟨by decide, by decide, by decide, by decide, by decide, by decide⟩

/-- C9, amended: `OnMakerResponse` does not look at the stored state. For a
stored swap in any state and either kind of store handle, a response from a
node other than the recorded peer is rejected and leaves the service state
unchanged, and a response from the recorded peer whose invoice decodes to at
most the `uint64` sum `Amount + FIXED_FEE` is applied: the stored record
becomes `WAITING_FOR_TX` with the maker key, the invoice and the opening
transaction id of the response and the payment hash of the decoded invoice. -/
theorem OnMakerResponse_no_state_check (h : StoreHandle) (w : World) (senderNodeId : String)
    (request : MakerResponse) (st : St) (swap : Swap)
    (hget : storeGetById st.store request.SwapId = .ok swap) :
    (swap.PeerNodeId ≠ senderNodeId →
        OnMakerResponseWith h w senderNodeId request st
          = (.err (.msg "peer has changed, aborting"), st)) ∧
      (∀ invoice, swap.PeerNodeId = senderNodeId →
        w.DecodePayreq request.Invoice = .ok invoice →
        invoice.Amount ≤ u64add swap.Amount FIXED_FEE →
        (OnMakerResponseWith h w senderNodeId request st).1 = .ok () ∧
          storeGetById (OnMakerResponseWith h w senderNodeId request st).2.store
              request.SwapId
            = .ok (acceptedSwap swap request invoice)) := by
  constructor
  · exact with_peer_mismatch h w senderNodeId request st swap hget
  · intro invoice hpeer hdec hle
    rw [with_accept h w senderNodeId request st swap invoice hget hpeer hdec hle]
    refine ⟨rfl, ?_⟩
    have hid : swap.Id = request.SwapId := storeGetById_id hget
    have hget2 := writeThrough_get h st request.SwapId swap (assignedSwap swap request)
      (acceptedSwap swap request invoice) hget hid hid
    have hmem : ∃ x ∈ (writeThrough h (writeThrough h st (assignedSwap swap request))
        (acceptedSwap swap request invoice)).store,
        x.Id = (acceptedSwap swap request invoice).Id :=
      ⟨_, storeGetById_mem hget2, (storeGetById_id hget2).trans hid.symm⟩
    have hmap := storeGetById_map_update _ (acceptedSwap swap request invoice) hmem
    have hid2 : request.SwapId = (acceptedSwap swap request invoice).Id := hid.symm
    rw [hid2]
    exact hmap

set_option maxRecDepth 100000 in
/-- Witness of C9, amended: the replayed response of the counterexample is
applied to the record in `WAITING_FOR_TX`, here over a store that hands out
live pointers. -/
theorem OnMakerResponse_no_state_check_witness :
    (OnMakerResponseWith .live Demo.takerWorld "maker" (Demo.responseFor 100500 "b8")
        Demo.waitingSt).1 = .ok () ∧
      storeGetById (OnMakerResponseWith .live Demo.takerWorld "maker"
        (Demo.responseFor 100500 "b8") Demo.waitingSt).2.store "5a"
        = .ok (acceptedSwap Demo.takerSwap (Demo.responseFor 100500 "b8")
            { PHash := Demo.digest32 Demo.preimage, Amount := 100500 }) :=
  (OnMakerResponse_no_state_check .live Demo.takerWorld "maker"
    (Demo.responseFor 100500 "b8") Demo.waitingSt Demo.takerSwap (by decide)).2
    { PHash := Demo.digest32 Demo.preimage, Amount := 100500 }
    (by decide) (by decide) (by decide)

/-! ### Ordering of store writes and effects -/

theorem precededBy_nil (auth : Event → Event → Prop) (effect : Event → Prop) :
    PrecededBy auth effect [] := by
  intro pre e post h
  cases pre <;> cases h

theorem precededBy_snoc {auth : Event → Event → Prop} {effect : Event → Prop}
    {l : List Event} {x : Event} (hl : PrecededBy auth effect l)
    (hx : effect x → ∃ e0 ∈ l, auth e0 x) : PrecededBy auth effect (l ++ [x]) := by
  intro pre e post h he
  rcases List.eq_nil_or_concat post with rfl | ⟨post0, z, rfl⟩
  · have h2 : l ++ [x] = pre ++ [e] := h
    obtain ⟨h3, h4⟩ := List.append_inj' h2 rfl
    have h5 : x = e := by simpa using h4
    subst h3 h5
    exact hx he
  · have h2 : l ++ [x] = (pre ++ e :: post0) ++ [z] := by
      rw [h]; simp
    obtain ⟨h3, _⟩ := List.append_inj' h2 rfl
    exact hl pre e post0 h3 he

/-- The outcomes of `CreateOpeningTransaction`: the only step it adds to the
trace is the broadcast, and a transaction id is returned only after it. -/
theorem CreateOpeningTransaction_cases (w : World) (swap : Swap) (st : St) :
    (∃ txHex txId,
        CreateOpeningTransaction w swap st = (.ok txId, st.emit (.broadcast txHex))) ∨
      (∃ txHex e,
        CreateOpeningTransaction w swap st = (.err e, st.emit (.broadcast txHex))) ∨
      (∃ e, CreateOpeningTransaction w swap st = (.err e, st)) ∨
      (∃ m, CreateOpeningTransaction w swap st = (.panic m, st)) := by
  unfold CreateOpeningTransaction
  cases openingTxHex w swap with
  | err e => exact Or.inr (Or.inr (Or.inl ⟨e, rfl⟩))
  | panic m => exact Or.inr (Or.inr (Or.inr ⟨m, rfl⟩))
  | ok txHex =>
    cases h : w.BroadcastTransaction txHex with
    | error e => exact Or.inr (Or.inl ⟨txHex, e, by simp only [h]⟩)
    | ok txId => exact Or.inl ⟨txHex, txId, by simp only [h]⟩

theorem CreateOpeningTransaction_ok {w : World} {swap : Swap} {st st4 : St} {txId : String}
    (h : CreateOpeningTransaction w swap st = (.ok txId, st4)) :
    ∃ txHex, st4 = st.emit (.broadcast txHex) := by
  rcases CreateOpeningTransaction_cases w swap st with
    ⟨txHex, t, hc⟩ | ⟨txHex, e, hc⟩ | ⟨e, hc⟩ | ⟨m, hc⟩ <;> rw [hc] at h <;> cases h
  exact ⟨txHex, rfl⟩

theorem CreateOpeningTransaction_err {w : World} {swap : Swap} {st st4 : St} {e : Err}
    (h : CreateOpeningTransaction w swap st = (.err e, st4)) :
    st4 = st ∨ ∃ txHex, st4 = st.emit (.broadcast txHex) := by
  rcases CreateOpeningTransaction_cases w swap st with
    ⟨txHex, t, hc⟩ | ⟨txHex, e1, hc⟩ | ⟨e1, hc⟩ | ⟨m, hc⟩ <;> rw [hc] at h <;> cases h
  · exact Or.inr ⟨txHex, rfl⟩
  · exact Or.inl rfl

theorem CreateOpeningTransaction_panic {w : World} {swap : Swap} {st st4 : St} {m : String}
    (h : CreateOpeningTransaction w swap st = (.panic m, st4)) : st4 = st := by
  rcases CreateOpeningTransaction_cases w swap st with
    ⟨txHex, t, hc⟩ | ⟨txHex, e1, hc⟩ | ⟨e1, hc⟩ | ⟨m1, hc⟩ <;> rw [hc] at h <;> cases h
  rfl

/-- The steps of `StartSwapIn`: the request is sent only after the record has
been created in the store. -/
theorem StartSwapIn_ordered (w : World) (peerNodeId channelId : String) (amount : Nat)
    (st : St) :
    ∃ evs, (StartSwapIn w peerNodeId channelId amount st).2.trace = st.trace ++ evs ∧
      PrecededBy CreatedBefore isRequestSend evs := by
  have hsend : ∀ (s : Swap) (r : SwapRequest), s.Id = r.SwapId →
      PrecededBy CreatedBefore isRequestSend
        (([] ++ [Event.storeCreate s]) ++ [Event.sendMessage peerNodeId (.request r)]) := by
    intro s r hid
    refine precededBy_snoc (precededBy_snoc (precededBy_nil _ _) ?_) ?_
    · rintro ⟨_, _, h⟩; cases h
    · intro _
      exact ⟨_, List.mem_singleton.mpr rfl, s, peerNodeId, r, rfl, rfl, hid⟩
  unfold StartSwapIn
  simp only []
  split
  · exact ⟨[], (List.append_nil _).symm, precededBy_nil _ _⟩
  · split
    · refine ⟨[_], rfl, ?_⟩
      apply precededBy_snoc (l := []) (precededBy_nil _ _)
      rintro ⟨_, _, h⟩; cases h
    · split
      · exact ⟨[_, _], by simp only [St.emit, List.append_assoc]; rfl, hsend _ _ rfl⟩
      · split
        · exact ⟨[_, _], by simp only [St.emit, List.append_assoc]; rfl, hsend _ _ rfl⟩
        · refine ⟨[_, _, _], by simp only [St.emit, List.append_assoc]; rfl, ?_⟩
          refine precededBy_snoc (hsend _ _ rfl) ?_
          rintro ⟨_, _, h⟩; cases h

/-- Both orderings of `OnSwapRequest` survive a step that is neither a
broadcast nor a response. -/
theorem ordered_snoc_neutral {w : World} {request : SwapRequest} {l : List Event}
    {x : Event}
    (hl : PrecededBy (fun e0 _ => PreparedBefore w request e0) isBroadcast l ∧
      PrecededBy BroadcastedBefore isResponseSend l)
    (hb : ¬ isBroadcast x) (hr : ¬ isResponseSend x) :
    PrecededBy (fun e0 _ => PreparedBefore w request e0) isBroadcast (l ++ [x]) ∧
      PrecededBy BroadcastedBefore isResponseSend (l ++ [x]) :=
  ⟨precededBy_snoc hl.1 (fun h => absurd h hb), precededBy_snoc hl.2 (fun h => absurd h hr)⟩

theorem not_isBroadcast_storeCreate (s : Swap) : ¬ isBroadcast (.storeCreate s) := by
  rintro ⟨_, h⟩; cases h

theorem not_isBroadcast_storeUpdate (s : Swap) : ¬ isBroadcast (.storeUpdate s) := by
  rintro ⟨_, h⟩; cases h

theorem not_isBroadcast_getPayreq (a : Nat) (p l : String) :
    ¬ isBroadcast (.getPayreq a p l) := by
  rintro ⟨_, h⟩; cases h

theorem not_isBroadcast_sendMessage (p : String) (m : Message) :
    ¬ isBroadcast (.sendMessage p m) := by
  rintro ⟨_, h⟩; cases h

theorem not_isResponseSend_storeCreate (s : Swap) : ¬ isResponseSend (.storeCreate s) := by
  rintro ⟨_, _, h⟩; cases h

theorem not_isResponseSend_storeUpdate (s : Swap) : ¬ isResponseSend (.storeUpdate s) := by
  rintro ⟨_, _, h⟩; cases h

theorem not_isResponseSend_getPayreq (a : Nat) (p l : String) :
    ¬ isResponseSend (.getPayreq a p l) := by
  rintro ⟨_, _, h⟩; cases h

theorem not_isResponseSend_broadcast (t : String) : ¬ isResponseSend (.broadcast t) := by
  rintro ⟨_, _, h⟩; cases h

/-- The first three steps of `OnSwapRequest` contain no broadcast and no
response. -/
theorem OnSwapRequest_steps3 (w : World) (request : SwapRequest) (s0 s2 : Swap)
    (a : Nat) (p l : String) :
    PrecededBy (fun e0 _ => PreparedBefore w request e0) isBroadcast
        [.storeCreate s0, .getPayreq a p l, .storeUpdate s2] ∧
      PrecededBy BroadcastedBefore isResponseSend
        [.storeCreate s0, .getPayreq a p l, .storeUpdate s2] := by
  have g0 : PrecededBy (fun e0 _ => PreparedBefore w request e0) isBroadcast [] ∧
      PrecededBy BroadcastedBefore isResponseSend [] :=
    ⟨precededBy_nil _ _, precededBy_nil _ _⟩
  have g1 := ordered_snoc_neutral g0 (not_isBroadcast_storeCreate s0)
    (not_isResponseSend_storeCreate s0)
  have g2 := ordered_snoc_neutral g1 (not_isBroadcast_getPayreq a p l)
    (not_isResponseSend_getPayreq a p l)
  exact ordered_snoc_neutral g2 (not_isBroadcast_storeUpdate s2)
    (not_isResponseSend_storeUpdate s2)

/-- The broadcast, fourth step of `OnSwapRequest`, follows the store write of
the prepared record. -/
theorem OnSwapRequest_steps4 (w : World) (request : SwapRequest) (s0 s2 : Swap)
    (a : Nat) (p l txHex : String)
    (h2 : PreparedBefore w request (.storeUpdate s2)) :
    PrecededBy (fun e0 _ => PreparedBefore w request e0) isBroadcast
        [.storeCreate s0, .getPayreq a p l, .storeUpdate s2, .broadcast txHex] ∧
      PrecededBy BroadcastedBefore isResponseSend
        [.storeCreate s0, .getPayreq a p l, .storeUpdate s2, .broadcast txHex] := by
  have g3 := OnSwapRequest_steps3 w request s0 s2 a p l
  exact ⟨precededBy_snoc g3.1 (fun _ => ⟨.storeUpdate s2, by simp, h2⟩),
    precededBy_snoc g3.2 (fun h => absurd h (not_isResponseSend_broadcast txHex))⟩

/-- The response, sixth step of `OnSwapRequest`, follows the store write of
the broadcasted record. -/
theorem OnSwapRequest_steps6 (w : World) (request : SwapRequest) (s0 s2 s3 : Swap)
    (a : Nat) (p l txHex peer : String) (r : MakerResponse)
    (h2 : PreparedBefore w request (.storeUpdate s2))
    (h3 : BroadcastedBefore (.storeUpdate s3) (.sendMessage peer (.response r))) :
    PrecededBy (fun e0 _ => PreparedBefore w request e0) isBroadcast
        [.storeCreate s0, .getPayreq a p l, .storeUpdate s2, .broadcast txHex,
          .storeUpdate s3, .sendMessage peer (.response r)] ∧
      PrecededBy BroadcastedBefore isResponseSend
        [.storeCreate s0, .getPayreq a p l, .storeUpdate s2, .broadcast txHex,
          .storeUpdate s3, .sendMessage peer (.response r)] := by
  have g4 := OnSwapRequest_steps4 w request s0 s2 a p l txHex h2
  have g5 := ordered_snoc_neutral g4 (not_isBroadcast_storeUpdate s3)
    (not_isResponseSend_storeUpdate s3)
  exact ⟨precededBy_snoc g5.1 (fun h => absurd h (not_isBroadcast_sendMessage _ _)),
    precededBy_snoc g5.2 (fun _ => ⟨.storeUpdate s3, by simp, h3⟩)⟩

/-- The steps of `OnSwapRequest`: the opening transaction is broadcast only
after the record has been stored as `OPENING_TX_PREPARED` with the payment
hash, and the response is sent only after the record has been stored as
`OPENING_TX_BROADCASTED` with the opening transaction id of the response. -/
theorem OnSwapRequest_ordered (w : World) (senderNodeId : String) (request : SwapRequest)
    (st : St) :
    ∃ evs, (OnSwapRequest w senderNodeId request st).2.trace = st.trace ++ evs ∧
      PrecededBy (fun e0 _ => PreparedBefore w request e0) isBroadcast evs ∧
      PrecededBy BroadcastedBefore isResponseSend evs := by
  have g0 : PrecededBy (fun e0 _ => PreparedBefore w request e0) isBroadcast [] ∧
      PrecededBy BroadcastedBefore isResponseSend [] :=
    ⟨precededBy_nil _ _, precededBy_nil _ _⟩
  have g1 : ∀ s, PrecededBy (fun e0 _ => PreparedBefore w request e0) isBroadcast
        [.storeCreate s] ∧
      PrecededBy BroadcastedBefore isResponseSend [.storeCreate s] := fun s =>
    ordered_snoc_neutral g0 (not_isBroadcast_storeCreate s) (not_isResponseSend_storeCreate s)
  have g2 : ∀ s a p l, PrecededBy (fun e0 _ => PreparedBefore w request e0) isBroadcast
        [.storeCreate s, .getPayreq a p l] ∧
      PrecededBy BroadcastedBefore isResponseSend [.storeCreate s, .getPayreq a p l] :=
    fun s a p l =>
      ordered_snoc_neutral (g1 s) (not_isBroadcast_getPayreq a p l)
        (not_isResponseSend_getPayreq a p l)
  unfold OnSwapRequest
  simp only []
  split
  · exact ⟨[], (List.append_nil _).symm, g0⟩
  · split
    · exact ⟨_, rfl, g1 _⟩
    · split
      · split
        · exact ⟨_, rfl, g1 _⟩
        · rename_i preimage hrand
          split
          · exact ⟨_, by simp only [St.emit, List.append_assoc]; rfl, g2 _ _ _ _⟩
          · split
            · exact ⟨_, by simp only [St.emit, List.append_assoc]; rfl, g2 _ _ _ _⟩
            · split
              · rename_i e4 st4 hC
                rcases CreateOpeningTransaction_err hC with rfl | ⟨txHex, rfl⟩
                · exact ⟨_, by simp only [St.emit, List.append_assoc]; rfl,
                    OnSwapRequest_steps3 w request _ _ _ _ _⟩
                · exact ⟨_, by simp only [St.emit, List.append_assoc]; rfl,
                    OnSwapRequest_steps4 w request _ _ _ _ _ _
                      (by exact ⟨_, preimage, rfl, rfl, rfl, hrand, rfl⟩)⟩
              · rename_i m4 st4 hC
                rw [CreateOpeningTransaction_panic hC]
                exact ⟨_, by simp only [St.emit, List.append_assoc]; rfl,
                  OnSwapRequest_steps3 w request _ _ _ _ _⟩
              · rename_i txId st4 hC
                obtain ⟨txHex, rfl⟩ := CreateOpeningTransaction_ok hC
                split
                · exact ⟨_, by simp only [St.emit, List.append_assoc]; rfl,
                    OnSwapRequest_steps4 w request _ _ _ _ _ _
                      (by exact ⟨_, preimage, rfl, rfl, rfl, hrand, rfl⟩)⟩
                · split
                  · exact ⟨_, by simp only [St.emit, List.append_assoc]; rfl,
                      OnSwapRequest_steps6 w request _ _ _ _ _ _ _ _ _
                        (by exact ⟨_, preimage, rfl, rfl, rfl, hrand, rfl⟩)
                        (by exact ⟨_, _, _, rfl, rfl, rfl, rfl, rfl⟩)⟩
                  · exact ⟨_, by simp only [St.emit, List.append_assoc]; rfl,
                      OnSwapRequest_steps6 w request _ _ _ _ _ _ _ _ _
                        (by exact ⟨_, preimage, rfl, rfl, rfl, hrand, rfl⟩)
                        (by exact ⟨_, _, _, rfl, rfl, rfl, rfl, rfl⟩)⟩
      · exact ⟨_, rfl, g1 _⟩

/-- C10: in every run of `StartSwapIn` and of `OnSwapRequest`, the steps the
run adds to the trace are ordered: a `SwapRequest` is sent only after the
record with its id has been created in the store; a transaction is broadcast
only after the record has been stored in state `OPENING_TX_PREPARED` with the
payment hash of the generated preimage; a `MakerResponse` is sent only after
the record has been stored in state `OPENING_TX_BROADCASTED` with the opening
transaction id the response carries. -/
theorem persist_before_effect (w : World) (peerNodeId channelId : String) (amount : Nat)
    (senderNodeId : String) (request : SwapRequest) (st : St) :
    (∃ evs, (StartSwapIn w peerNodeId channelId amount st).2.trace = st.trace ++ evs ∧
        PrecededBy CreatedBefore isRequestSend evs) ∧
      (∃ evs, (OnSwapRequest w senderNodeId request st).2.trace = st.trace ++ evs ∧
        PrecededBy (fun e0 _ => PreparedBefore w request e0) isBroadcast evs ∧
        PrecededBy BroadcastedBefore isResponseSend evs) :=
  ⟨StartSwapIn_ordered w peerNodeId channelId amount st,
   OnSwapRequest_ordered w senderNodeId request st⟩

set_option maxRecDepth 100000 in
/-- A complete run at C10: the maker's run on the demo request takes six
steps; its fourth step is the broadcast and one of the three steps before it
is the store write of the prepared record. -/
theorem persist_before_effect_witness :
    Demo.makerRun.2.trace.length = 6 ∧
      Demo.makerRun.2.trace.get? 3 = some (.broadcast Demo.openingTxHexLit) ∧
      ∃ e0 ∈ Demo.makerRun.2.trace.take 3,
        PreparedBefore (Demo.world 700000) Demo.request e0 :=
  ⟨by decide, by decide,
   match (persist_before_effect (Demo.world 700000) "maker" "ch" 100000 "taker"
      Demo.request Demo.emptySt).2 with
   | ⟨_, htr, hb, _⟩ =>
     hb (Demo.makerRun.2.trace.take 3) (.broadcast Demo.openingTxHexLit)
       (Demo.makerRun.2.trace.drop 4)
       ((show Demo.makerRun.2.trace = _ from htr).symm.trans (by decide))
       ⟨Demo.openingTxHexLit, rfl⟩⟩

/-! ### `OnMakerResponse`: the stored record after an overpaying invoice -/

set_option maxRecDepth 100000 in
/-- Counterexample to C11 as stated: on a stored swap of 100 000 sat in
`REQUEST_SENT`, the recorded peer answers with an invoice of 101 000 000
units; the response is rejected, and the record read back from the store is
in `REQUEST_SENT` when the store hands out copies and in `WAITING_FOR_TX`
when it hands out live pointers, in neither case in `ABORTED`. -/
theorem OnMakerResponse_overpay_not_aborted :
    storeGetById Demo.takerSt.store (Demo.responseFor 101000000 "a7").SwapId
        = .ok Demo.takerRequested ∧
      Demo.takerRequested.PeerNodeId = "maker" ∧
      Demo.takerWorld.DecodePayreq (Demo.responseFor 101000000 "a7").Invoice
        = .ok { PHash := Demo.digest32 Demo.preimage, Amount := 101000000 } ∧
      101000000 > Demo.takerRequested.Amount + FIXED_FEE ∧
      (OnMakerResponseWith .copy Demo.takerWorld "maker" (Demo.responseFor 101000000 "a7")
        Demo.takerSt).1 = .err (.msg "invoice amount is to high") ∧
      (storeGetById (OnMakerResponseWith .copy Demo.takerWorld "maker"
          (Demo.responseFor 101000000 "a7") Demo.takerSt).2.store "5a").toOption.map
        (fun s => s.State) = some SWAPSTATE_REQUEST_SENT ∧
      (OnMakerResponseWith .live Demo.takerWorld "maker" (Demo.responseFor 101000000 "a7")
        Demo.takerSt).1 = .err (.msg "invoice amount is to high") ∧
      (storeGetById (OnMakerResponseWith .live Demo.takerWorld "maker"
          (Demo.responseFor 101000000 "a7") Demo.takerSt).2.store "5a").toOption.map
        (fun s => s.State) = some SWAPSTATE_WAITING_FOR_TX := by
  refine ⟨by decide, by decide, by decide, by decide, by decide, by decide, by decide,
    by decide⟩

/-- C11, amended: for a stored swap and a response from the recorded peer
whose decoded invoice amount exceeds `Amount + FIXED_FEE`, `OnMakerResponse`
rejects the response with "invoice amount is to high" without calling
`store.Update` and without touching the watch list. The state `ABORTED` is
not written: the stored record afterwards is the record as it was when the
store hands out copies, and the record with the fields of the response and
state `WAITING_FOR_TX` when the store hands out live pointers; so its state
is the state it had before or `WAITING_FOR_TX`, and it is `ABORTED` only if
it was before. -/
theorem OnMakerResponse_overpay_never_aborts (h : StoreHandle) (w : World)
    (senderNodeId : String) (request : MakerResponse) (st : St) (swap : Swap)
    (invoice : Invoice)
    (hget : storeGetById st.store request.SwapId = .ok swap)
    (hpeer : swap.PeerNodeId = senderNodeId)
    (hdec : w.DecodePayreq request.Invoice = .ok invoice)
    (hgt : invoice.Amount > swap.Amount + FIXED_FEE) :
    (OnMakerResponseWith h w senderNodeId request st).1
        = .err (.msg "invoice amount is to high") ∧
      (OnMakerResponseWith h w senderNodeId request st).2.txWatchList = st.txWatchList ∧
      (OnMakerResponseWith h w senderNodeId request st).2.trace = st.trace ∧
      storeGetById (OnMakerResponseWith h w senderNodeId request st).2.store request.SwapId
        = .ok (storedAfter h swap (acceptedSwap swap request invoice)) ∧
      (∀ s, storeGetById (OnMakerResponseWith h w senderNodeId request st).2.store
            request.SwapId = .ok s →
          (s.State = swap.State ∨ s.State = SWAPSTATE_WAITING_FOR_TX) ∧
            (swap.State ≠ SWAPSTATE_ABORTED → s.State ≠ SWAPSTATE_ABORTED)) := by
  have hle : u64add swap.Amount FIXED_FEE ≤ swap.Amount + FIXED_FEE := by
    unfold u64add
    exact Nat.mod_le _ _
  have hid : swap.Id = request.SwapId := storeGetById_id hget
  have hget2 := writeThrough_get h st request.SwapId swap (assignedSwap swap request)
    (acceptedSwap swap request invoice) hget hid hid
  rw [with_overpay h w senderNodeId request st swap invoice hget hpeer hdec (by omega)]
  refine ⟨rfl, ?_, ?_, hget2, ?_⟩
  · simp only [writeThrough_txWatchList]
  · simp only [writeThrough_trace]
  · intro s hs
    have hs2 : Except.ok s
        = Except.ok (storedAfter h swap (acceptedSwap swap request invoice)) :=
      hs.symm.trans hget2
    have hs3 : s = storedAfter h swap (acceptedSwap swap request invoice) := by
      injection hs2
    subst hs3
    cases h with
    | copy => exact ⟨Or.inl rfl, fun hne => hne⟩
    | live => exact ⟨Or.inr rfl, fun _ hab => by cases hab⟩

set_option maxRecDepth 100000 in
/-- Witness of C11, amended: the invoice of 101 000 000 units on the swap of
100 000 sat is rejected; over a store that hands out live pointers the record
is left in `WAITING_FOR_TX` with the overpaying invoice. -/
theorem OnMakerResponse_overpay_never_aborts_witness :
    (OnMakerResponseWith .live Demo.takerWorld "maker" (Demo.responseFor 101000000 "a7")
        Demo.takerSt).1 = .err (.msg "invoice amount is to high") ∧
      storeGetById (OnMakerResponseWith .live Demo.takerWorld "maker"
          (Demo.responseFor 101000000 "a7") Demo.takerSt).2.store "5a"
        = .ok (acceptedSwap Demo.takerRequested (Demo.responseFor 101000000 "a7")
            { PHash := Demo.digest32 Demo.preimage, Amount := 101000000 }) :=
  have h := OnMakerResponse_overpay_never_aborts .live Demo.takerWorld "maker"
    (Demo.responseFor 101000000 "a7") Demo.takerSt Demo.takerRequested
    { PHash := Demo.digest32 Demo.preimage, Amount := 101000000 }
    (by decide) (by decide) (by decide) (by decide)
  ⟨h.1, h.2.2.2.1⟩

end PeerSwap
